import Mathlib

set_option maxRecDepth 4000

/-!
Verification of the multi-tenant AI-services core (access filtering, provider
registries, vector-database backends, retrieval/generation pipeline, agent
manager) against its natural-language specification.  Each definition is a
shallow embedding of the corresponding Python function; Python dicts become
association lists, floats and opaque client objects become abstract values,
and stateful code is written in explicit state-passing style.
-/

namespace HelloPulse

/-- A metadata value stored on a document: the code stores strings
(`organization_id`, `user_id`, `visibility`, ids), lists of strings
(`associated_agents`) and integers (`timestamp`). -/
inductive MVal where
  | str (s : String)
  | list (ss : List String)
  | int (n : Int)
deriving DecidableEq, Repr

/-- Document metadata, a Python dict: an association list from field name to
value (keys unique in any store produced by the code). -/
abbrev Meta := List (String × MVal)

/-- A value constraint in a filter dict: a bare value (equality) or a
`{"$in": [...]}` membership constraint, as built by `get_access_filters`. -/
inductive FVal where
  | eq (s : String)
  | isin (vs : List String)
deriving DecidableEq, Repr

/-- A top-level entry of a filter dict: either a value constraint on a field,
or the `"$or"` key mapping to a list of alternative conjunctions. -/
inductive FEntry where
  | leaf (v : FVal)
  | orF (ds : List (List (String × FVal)))
deriving DecidableEq, Repr

/-- A filter dict (`utils/filtering.py` builds these as plain Python dicts). -/
abbrev Filter := List (String × FEntry)

/-- Python dict assignment `d[k] = v`: replace the value if the key is
present, otherwise append the binding. -/
def dictSet (d : Filter) (k : String) (v : FEntry) : Filter :=
  if d.any (fun e => e.1 = k) then
    d.map (fun e => if e.1 = k then (k, v) else e)
  else
    d ++ [(k, v)]

/-- The default visibility list of `get_access_filters` (shared + public). -/
def defaultVisibilityFilter : List String := ["shared", "public"]

/-- The default `"$or"` disjunction installed by `get_access_filters` when no
explicit visibility list is supplied: own documents or shared/public ones. -/
def defaultOrEntry (userId : String) : FEntry :=
  .orF [[("user_id", .eq userId)],
        [("visibility", .isin defaultVisibilityFilter)]]

/-- `utils/filtering.py: get_access_filters`.  Builds the security filter:
organization conjunct, then the visibility clause, then the caller's
additional filters written in with dict assignment (last writer wins).
`additionalFilters` models the `**additional_filters` keyword arguments; in
Python these can never contain the keys `organization_id`, `user_id` or
`visibility`, because those names are bound by the named parameters. -/
def getAccessFilters (organizationId userId : String)
    (visibility : Option (List String)) (additionalFilters : Filter) : Filter :=
  let filters : Filter := [("organization_id", .leaf (.eq organizationId))]
  let filters : Filter :=
    match visibility with
    | none => filters ++ [("$or", defaultOrEntry userId)]
    | some vis =>
      if "private" ∈ vis then
        if vis.length = 1 then
          filters ++ [("user_id", .leaf (.eq userId))]
        else
          filters ++ [("$or", .orF [[("user_id", .eq userId)],
            [("visibility", .isin (vis.filter (fun v => v ≠ "private")))]])]
      else
        filters ++ [("visibility", .leaf (.isin vis))]
  additionalFilters.foldl (fun acc kv => dictSet acc kv.1 kv.2) filters

/-- Evaluate a value constraint against a (possibly missing) metadata value.
Equality is string equality; `$in` is membership of a string value. -/
def evalFVal (v : FVal) (mv : Option MVal) : Bool :=
  match v, mv with
  | .eq s, some (.str t) => s = t
  | .isin vs, some (.str t) => t ∈ vs
  | _, _ => false

/-- Evaluate one conjunction of field constraints against metadata. -/
def evalConj (kvs : List (String × FVal)) (m : Meta) : Bool :=
  kvs.all (fun kv => evalFVal kv.2 (m.lookup kv.1))

/-- Evaluate one filter-dict entry against metadata. -/
def evalEntry (k : String) (e : FEntry) (m : Meta) : Bool :=
  match e with
  | .leaf v => evalFVal v (m.lookup k)
  | .orF ds => ds.any (fun d => evalConj d m)

/-- Evaluate a whole filter dict: top-level entries are conjuncts. -/
def evalFilter (f : Filter) (m : Meta) : Bool :=
  f.all (fun kv => evalEntry kv.1 kv.2 m)

/-- `utils/filtering.py: document_access_check`: direct per-document access
decision.  A document of another organization is accessible iff its
visibility is `public`; inside the organization the owner always has access,
otherwise `shared`/`public` grant access and anything else denies. -/
def documentAccessCheck (documentMetadata : Meta) (userId organizationId : String) : Bool :=
  let docOrgId := documentMetadata.lookup "organization_id"
  if docOrgId ≠ some (.str organizationId) then
    documentMetadata.lookup "visibility" = some (.str "public")
  else
    let docUserId := documentMetadata.lookup "user_id"
    let docVisibility := (documentMetadata.lookup "visibility").getD (.str "private")
    if docUserId = some (.str userId) then true
    else if docVisibility = .str "private" then false
    else if docVisibility = .str "shared" then true
    else if docVisibility = .str "public" then true
    else false

/-- The keys `retrieve_relevant_documents` refuses to merge from the caller's
`filter_dict` (`services/rag/retriever.py`, lines 58-61). -/
def securityKeys : List String := ["organization_id", "user_id", "$or"]

/-- `services/rag/retriever.py: retrieve_relevant_documents`, lines 50-61:
the filter actually handed to the vector database's `search`.  Access filters
are built with default visibility and no extras, then the caller's
`filter_dict` is merged in, skipping the security keys. -/
def retrieveFilter (organizationId userId : String) (filterDict : Filter) : Filter :=
  let accessFilters := getAccessFilters organizationId userId none []
  filterDict.foldl
    (fun acc kv => if kv.1 ∈ securityKeys then acc else dictSet acc kv.1 kv.2)
    accessFilters

/-! ### Association-list lemmas shared by the developments below -/

theorem lookup_cons' {β : Type} (k k' : String) (v : β) (l : List (String × β)) :
    List.lookup k' ((k, v) :: l) = if k' = k then some v else List.lookup k' l := by
  cases hbe : k' == k
  · simp [List.lookup_cons, hbe, beq_eq_false_iff_ne.mp hbe]
  · simp [List.lookup_cons, hbe, (beq_iff_eq ..).mp hbe]

theorem lookup_pair_cons {β : Type} (kv : String × β) (k' : String) (l : List (String × β)) :
    List.lookup k' (kv :: l) = if k' = kv.1 then some kv.2 else List.lookup k' l :=
  lookup_cons' kv.1 k' kv.2 l

theorem mem_of_lookup_eq_some {β : Type} {k : String} {v : β} :
    ∀ {l : List (String × β)}, List.lookup k l = some v → (k, v) ∈ l := by
  intro l
  induction l with
  | nil => intro h; simp [List.lookup] at h
  | cons kv rest ih =>
    intro h
    rw [lookup_pair_cons] at h
    by_cases hk : k = kv.1
    · simp only [hk, if_pos, Option.some.injEq] at h
      rw [hk, h.symm] at *
      exact List.mem_cons_self ..
    · rw [if_neg hk] at h
      exact List.mem_cons_of_mem _ (ih h)

theorem lookup_append_left {β : Type} {k : String} {v : β} {l₁ : List (String × β)}
    (l₂ : List (String × β)) (h : List.lookup k l₁ = some v) :
    List.lookup k (l₁ ++ l₂) = some v := by
  induction l₁ with
  | nil => simp [List.lookup] at h
  | cons kv rest ih =>
    rw [lookup_pair_cons] at h
    rw [List.cons_append, lookup_pair_cons]
    by_cases hk : k = kv.1
    · rwa [if_pos hk] at h ⊢
    · rw [if_neg hk] at h ⊢
      exact ih h

theorem lookup_append_right {β : Type} {k : String} {l₁ l₂ : List (String × β)}
    (h : ∀ kv ∈ l₁, kv.1 ≠ k) :
    List.lookup k (l₁ ++ l₂) = List.lookup k l₂ := by
  induction l₁ with
  | nil => simp
  | cons kv rest ih =>
    have hne : k ≠ kv.1 := fun he => (h kv (List.mem_cons_self ..)) he.symm
    rw [List.cons_append, lookup_pair_cons, if_neg hne]
    exact ih (fun kv hm => h kv (List.mem_cons_of_mem _ hm))

theorem lookup_eq_none_of_keys_ne {β : Type} {k : String} {l : List (String × β)}
    (h : ∀ kv ∈ l, kv.1 ≠ k) : List.lookup k l = none := by
  induction l with
  | nil => rfl
  | cons kv rest ih =>
    rw [lookup_pair_cons,
      if_neg (fun he => (h kv (List.mem_cons_self ..)) he.symm)]
    exact ih (fun kv hm => h kv (List.mem_cons_of_mem _ hm))

/-! ### Lemmas about `dictSet` and the filter-merging folds -/

theorem lookup_mapReplace_self (d : Filter) (k : String) (v : FEntry)
    (hc : d.any (fun e => e.1 = k) = true) :
    List.lookup k (d.map (fun e => if e.1 = k then (k, v) else e)) = some v := by
  induction d with
  | nil => simp at hc
  | cons e rest ih =>
    by_cases hek : e.1 = k
    · rw [List.map_cons, if_pos hek, lookup_cons', if_pos rfl]
    · rw [List.map_cons, if_neg hek, lookup_pair_cons,
        if_neg (fun he => hek he.symm)]
      apply ih
      simpa [hek] using hc

theorem lookup_mapReplace_ne (d : Filter) {k k' : String} (v : FEntry) (h : k' ≠ k) :
    List.lookup k' (d.map (fun e => if e.1 = k then (k, v) else e)) =
      List.lookup k' d := by
  induction d with
  | nil => rfl
  | cons e rest ih =>
    by_cases hek : e.1 = k
    · rw [List.map_cons, if_pos hek, lookup_cons', if_neg h, lookup_pair_cons,
        if_neg (fun he => h (he.trans hek)), ih]
    · rw [List.map_cons, if_neg hek, lookup_pair_cons, lookup_pair_cons]
      by_cases hk' : k' = e.1
      · rw [if_pos hk', if_pos hk']
      · rw [if_neg hk', if_neg hk', ih]

theorem lookup_dictSet_self (d : Filter) (k : String) (v : FEntry) :
    List.lookup k (dictSet d k v) = some v := by
  unfold dictSet
  by_cases hc : d.any (fun e => e.1 = k)
  · rw [if_pos hc]
    exact lookup_mapReplace_self d k v hc
  · rw [if_neg hc]
    have hkeys : ∀ kv ∈ d, kv.1 ≠ k := by
      intro kv hmem he
      exact hc (List.any_eq_true.mpr ⟨kv, hmem, by simp [he]⟩)
    rw [lookup_append_right hkeys, lookup_cons', if_pos rfl]

theorem lookup_append {β : Type} (k : String) (l₁ l₂ : List (String × β)) :
    List.lookup k (l₁ ++ l₂) =
      ((List.lookup k l₁).rec (List.lookup k l₂) (fun v => some v)) := by
  induction l₁ with
  | nil => rfl
  | cons kv rest ih =>
    rw [List.cons_append, lookup_pair_cons, lookup_pair_cons]
    by_cases hk : k = kv.1
    · rw [if_pos hk, if_pos hk]
    · rw [if_neg hk, if_neg hk, ih]

theorem lookup_dictSet_ne (d : Filter) {k k' : String} (v : FEntry) (h : k' ≠ k) :
    List.lookup k' (dictSet d k v) = List.lookup k' d := by
  unfold dictSet
  by_cases hc : d.any (fun e => e.1 = k)
  · rw [if_pos hc]
    exact lookup_mapReplace_ne d v h
  · rw [if_neg hc, lookup_append, lookup_cons', if_neg h]
    match List.lookup k' d with
    | none => rfl
    | some w => rfl

/-- Folding caller extras into the filter leaves any key that none of the
extras mention untouched (`get_access_filters`, lines 72-74). -/
theorem lookup_foldl_dictSet (l : List (String × FEntry)) (acc : Filter) (k : String)
    (h : ∀ kv ∈ l, kv.1 ≠ k) :
    List.lookup k (l.foldl (fun acc kv => dictSet acc kv.1 kv.2) acc) =
      List.lookup k acc := by
  induction l generalizing acc with
  | nil => rfl
  | cons kv rest ih =>
    rw [List.foldl_cons, ih _ (fun kv hm => h kv (List.mem_cons_of_mem _ hm)),
      lookup_dictSet_ne _ _ (fun he => h kv (List.mem_cons_self ..) he.symm)]

/-- The organization conjunct of `get_access_filters` survives every
visibility mode and every set of caller extras that does not name
`organization_id` (in Python such extras cannot even be passed). -/
theorem getAccessFilters_lookup_org (organizationId userId : String)
    (visibility : Option (List String)) (additionalFilters : Filter)
    (hkeys : ∀ kv ∈ additionalFilters, kv.1 ≠ "organization_id") :
    List.lookup "organization_id"
        (getAccessFilters organizationId userId visibility additionalFilters) =
      some (.leaf (.eq organizationId)) := by
  unfold getAccessFilters
  rw [lookup_foldl_dictSet _ _ _ hkeys]
  match visibility with
  | none => exact lookup_append_left _ (by rw [lookup_cons', if_pos rfl])
  | some vis =>
    by_cases hp : "private" ∈ vis
    · by_cases hl : vis.length = 1
      · simp only [hp, if_pos, hl]
        exact lookup_append_left _ (by rw [lookup_cons', if_pos rfl])
      · simp only [hp, if_pos, hl, if_neg, not_false_iff]
        exact lookup_append_left _ (by rw [lookup_cons', if_pos rfl])
    · simp only [hp, if_neg, not_false_iff]
      exact lookup_append_left _ (by rw [lookup_cons', if_pos rfl])

theorem evalFilter_false_of_mem {f : Filter} {k : String} {e : FEntry} {m : Meta}
    (hmem : (k, e) ∈ f) (hfalse : evalEntry k e m = false) :
    evalFilter f m = false := by
  rw [evalFilter, ← Bool.not_eq_true, List.all_eq_true]
  intro hall
  have := hall (k, e) hmem
  simp only at this
  rw [hfalse] at this
  exact Bool.false_ne_true this

/-- Security core: whatever the visibility argument and the caller extras
(as long as they cannot name `organization_id`, which Python enforces), the
built filter evaluates to false on any document whose stored
`organization_id` differs from the caller's. -/
theorem evalFilter_getAccessFilters_cross_org
    (organizationId userId : String) (visibility : Option (List String))
    (additionalFilters : Filter) (m : Meta)
    (hkeys : ∀ kv ∈ additionalFilters, kv.1 ≠ "organization_id")
    (hm : m.lookup "organization_id" ≠ some (.str organizationId)) :
    evalFilter (getAccessFilters organizationId userId visibility additionalFilters) m
      = false := by
  apply evalFilter_false_of_mem
    (mem_of_lookup_eq_some
      (getAccessFilters_lookup_org organizationId userId visibility additionalFilters hkeys))
  rw [evalEntry]
  match hmv : m.lookup "organization_id" with
  | none => rfl
  | some (.str t) =>
    rw [evalFVal]
    simp only [decide_eq_false_iff_not]
    intro he
    exact hm (by rw [hmv, he])
  | some (.list _) => rfl
  | some (.int _) => rfl

/-! ### Lemmas about the retriever's security-preserving merge -/

/-- One fold step of the retriever merge. -/
def retrStep (acc : Filter) (kv : String × FEntry) : Filter :=
  if kv.1 ∈ securityKeys then acc else dictSet acc kv.1 kv.2

theorem retrieveFilter_eq_fold (organizationId userId : String) (filterDict : Filter) :
    retrieveFilter organizationId userId filterDict =
      filterDict.foldl retrStep (getAccessFilters organizationId userId none []) := rfl

theorem lookup_retrFold_sec (l : Filter) (acc : Filter) (k : String)
    (hk : k ∈ securityKeys) :
    List.lookup k (l.foldl retrStep acc) = List.lookup k acc := by
  induction l generalizing acc with
  | nil => rfl
  | cons kv rest ih =>
    rw [List.foldl_cons, ih]
    unfold retrStep
    by_cases hs : kv.1 ∈ securityKeys
    · rw [if_pos hs]
    · rw [if_neg hs, lookup_dictSet_ne _ _ (fun he => hs (by rw [← he]; exact hk))]

theorem lookup_retrFold_ne (l : Filter) (acc : Filter) (k : String)
    (h : ∀ kv ∈ l, kv.1 ≠ k) :
    List.lookup k (l.foldl retrStep acc) = List.lookup k acc := by
  induction l generalizing acc with
  | nil => rfl
  | cons kv rest ih =>
    rw [List.foldl_cons, ih _ (fun kv hm => h kv (List.mem_cons_of_mem _ hm))]
    unfold retrStep
    by_cases hs : kv.1 ∈ securityKeys
    · rw [if_pos hs]
    · rw [if_neg hs,
        lookup_dictSet_ne _ _ (fun he => h kv (List.mem_cons_self ..) he.symm)]

theorem lookup_retrFold_mem (l : Filter) (acc : Filter) {k : String} {v : FEntry}
    (hnd : (l.map Prod.fst).Nodup) (hks : k ∉ securityKeys) (hmem : (k, v) ∈ l) :
    List.lookup k (l.foldl retrStep acc) = some v := by
  induction l generalizing acc with
  | nil => simp at hmem
  | cons kv rest ih =>
    rw [List.map_cons, List.nodup_cons] at hnd
    rcases List.mem_cons.mp hmem with hh | ht
    · subst hh
      rw [List.foldl_cons]
      have hknotin : ∀ kv2 ∈ rest, kv2.1 ≠ k := by
        intro kv2 hm2 he
        apply hnd.1
        rw [show ((k, v).1 : String) = k from rfl, ← he]
        exact List.mem_map_of_mem Prod.fst hm2
      rw [lookup_retrFold_ne _ _ _ hknotin]
      unfold retrStep
      rw [if_neg (show ¬ ((k, v).1 ∈ securityKeys) from hks)]
      exact lookup_dictSet_self ..
    · rw [List.foldl_cons]
      exact ih _ hnd.2 ht

theorem retrFold_filter_sec_eq (l : Filter) (acc : Filter) :
    (l.filter (fun kv => kv.1 ∉ securityKeys)).foldl retrStep acc =
      l.foldl retrStep acc := by
  induction l generalizing acc with
  | nil => rfl
  | cons kv rest ih =>
    by_cases hs : kv.1 ∈ securityKeys
    · rw [List.filter_cons, if_neg (by simp [hs]), List.foldl_cons,
        show retrStep acc kv = acc from if_pos hs, ih]
    · rw [List.filter_cons, if_pos (by simp [hs]), List.foldl_cons, List.foldl_cons, ih]

/-- The access filter the retriever starts from (default visibility, no
extras) is exactly the organization conjunct plus the default disjunction. -/
theorem accessFilters_default_eq (organizationId userId : String) :
    getAccessFilters organizationId userId none [] =
      [("organization_id", .leaf (.eq organizationId)),
       ("$or", defaultOrEntry userId)] := rfl

/-! ### Claim C1 -/

/-- C1 counterexample: the claim says a caller-supplied attempt to override
the `$or` disjunction is ignored, but `get_access_filters` writes caller
extras in last (lines 72-74), so an extra filter under the key `"$or"`
replaces the default disjunction structure. -/
theorem getAccessFilters_or_override_counterexample :
    List.lookup "$or"
        (getAccessFilters "org1" "alice" none
          [("$or", .orF [[("visibility", .eq "private")]])]) =
      some (.orF [[("visibility", .eq "private")]])
    ∧ FEntry.orF [[("visibility", .eq "private")]] ≠ defaultOrEntry "alice" := by
  constructor
  · rfl
  · decide

/-- C1 (amended): the `organization_id` equality conjunct of
`get_access_filters` is never overridable — extra filters cannot name
`organization_id` (Python binds it as a named parameter), so the conjunct is
always present at top level and the filter never evaluates to true for a
document whose stored `organization_id` differs.  (A caller-supplied `"$or"`
extra, however, does replace the default disjunction, per the
counterexample.) -/
theorem getAccessFilters_org_conjunct_isolation
    (organizationId userId : String) (visibility : Option (List String))
    (additionalFilters : Filter) (m : Meta)
    (hkeys : ∀ kv ∈ additionalFilters, kv.1 ≠ "organization_id")
    (hm : m.lookup "organization_id" ≠ some (.str organizationId)) :
    List.lookup "organization_id"
        (getAccessFilters organizationId userId visibility additionalFilters) =
      some (.leaf (.eq organizationId))
    ∧ evalFilter (getAccessFilters organizationId userId visibility additionalFilters) m
        = false :=
  ⟨getAccessFilters_lookup_org organizationId userId visibility additionalFilters hkeys,
   evalFilter_getAccessFilters_cross_org organizationId userId visibility
     additionalFilters m hkeys hm⟩

/-- C1 witness: concrete instantiation of the isolation theorem. -/
theorem getAccessFilters_org_conjunct_isolation_witness :
    (∀ kv ∈ ([("topic", .leaf (.eq "news"))] : Filter), kv.1 ≠ "organization_id")
    ∧ ([(("organization_id" : String), MVal.str "org2")] : Meta).lookup "organization_id"
        ≠ some (.str "org1")
    ∧ (List.lookup "organization_id"
          (getAccessFilters "org1" "alice" none [("topic", .leaf (.eq "news"))]) =
        some (.leaf (.eq "org1"))
      ∧ evalFilter (getAccessFilters "org1" "alice" none [("topic", .leaf (.eq "news"))])
          [("organization_id", MVal.str "org2")] = false) :=
  ⟨by decide, by decide,
   getAccessFilters_org_conjunct_isolation "org1" "alice" none
     [("topic", .leaf (.eq "news"))] [("organization_id", MVal.str "org2")]
     (by decide) (by decide)⟩

/-! ### Claim C3 -/

/-- C3: the filter handed to the vector database's `search` by
`retrieve_relevant_documents` keeps the access-filter builder's
`organization_id`, `user_id` and `$or` entries unchanged; caller `filter_dict`
entries under any other key are merged in, and entries under the three
security keys are dropped (merging only the non-security entries produces the
identical filter). -/
theorem retrieveFilter_preserves_security
    (organizationId userId : String) (filterDict : Filter)
    (hnd : (filterDict.map Prod.fst).Nodup) :
    List.lookup "organization_id" (retrieveFilter organizationId userId filterDict) =
      some (.leaf (.eq organizationId))
    ∧ List.lookup "$or" (retrieveFilter organizationId userId filterDict) =
      some (defaultOrEntry userId)
    ∧ List.lookup "user_id" (retrieveFilter organizationId userId filterDict) = none
    ∧ (∀ k v, k ∉ securityKeys → (k, v) ∈ filterDict →
        List.lookup k (retrieveFilter organizationId userId filterDict) = some v)
    ∧ retrieveFilter organizationId userId
        (filterDict.filter (fun kv => kv.1 ∉ securityKeys)) =
      retrieveFilter organizationId userId filterDict := by
  rw [retrieveFilter_eq_fold, retrieveFilter_eq_fold]
  refine ⟨?_, ?_, ?_, ?_, ?_⟩
  · rw [lookup_retrFold_sec _ _ _ (by decide), accessFilters_default_eq,
      lookup_cons', if_pos rfl]
  · rw [lookup_retrFold_sec _ _ _ (by decide), accessFilters_default_eq,
      lookup_cons', if_neg (by decide), lookup_cons', if_pos rfl]
  · rw [lookup_retrFold_sec _ _ _ (by decide), accessFilters_default_eq,
      lookup_cons', if_neg (by decide), lookup_cons', if_neg (by decide)]
    rfl
  · intro k v hks hmem
    exact lookup_retrFold_mem _ _ hnd hks hmem
  · exact retrFold_filter_sec_eq ..

/-- C3 witness: concrete instantiation (an extra `topic` conjunct is merged,
a caller attempt at `organization_id` is dropped). -/
theorem retrieveFilter_preserves_security_witness :
    (((([("topic", .leaf (.eq "news")), ("organization_id", .leaf (.eq "evil"))] : Filter)).map
        Prod.fst).Nodup)
    ∧ (List.lookup "organization_id"
          (retrieveFilter "org1" "alice"
            [("topic", .leaf (.eq "news")), ("organization_id", .leaf (.eq "evil"))]) =
        some (.leaf (.eq "org1"))
      ∧ List.lookup "$or"
          (retrieveFilter "org1" "alice"
            [("topic", .leaf (.eq "news")), ("organization_id", .leaf (.eq "evil"))]) =
        some (defaultOrEntry "alice")
      ∧ List.lookup "user_id"
          (retrieveFilter "org1" "alice"
            [("topic", .leaf (.eq "news")), ("organization_id", .leaf (.eq "evil"))]) = none
      ∧ (∀ k v, k ∉ securityKeys →
          (k, v) ∈ ([("topic", .leaf (.eq "news")),
                     ("organization_id", .leaf (.eq "evil"))] : Filter) →
          List.lookup k
            (retrieveFilter "org1" "alice"
              [("topic", .leaf (.eq "news")), ("organization_id", .leaf (.eq "evil"))]) =
          some v)
      ∧ retrieveFilter "org1" "alice"
          (([("topic", .leaf (.eq "news")),
             ("organization_id", .leaf (.eq "evil"))] : Filter).filter
            (fun kv => kv.1 ∉ securityKeys)) =
        retrieveFilter "org1" "alice"
          [("topic", .leaf (.eq "news")), ("organization_id", .leaf (.eq "evil"))]) :=
  ⟨by decide,
   retrieveFilter_preserves_security "org1" "alice"
     [("topic", .leaf (.eq "news")), ("organization_id", .leaf (.eq "evil"))] (by decide)⟩

/-! ### Claim C10 -/

/-- C10: `document_access_check` grants cross-organization access exactly to
public documents — for metadata whose `organization_id` differs from the
caller's it returns true iff `visibility = "public"` — while the filters
built by `get_access_filters` always carry the `organization_id` equality
conjunct, so the same cross-organization document never satisfies any access
filter (it is reachable via the direct check but not via filtered search). -/
theorem documentAccessCheck_cross_org_public
    (m : Meta) (userId organizationId : String)
    (visibility : Option (List String)) (additionalFilters : Filter)
    (hm : m.lookup "organization_id" ≠ some (.str organizationId))
    (hkeys : ∀ kv ∈ additionalFilters, kv.1 ≠ "organization_id") :
    (documentAccessCheck m userId organizationId = true ↔
      m.lookup "visibility" = some (.str "public"))
    ∧ evalFilter (getAccessFilters organizationId userId visibility additionalFilters) m
        = false := by
  constructor
  · unfold documentAccessCheck
    rw [if_pos hm]
    simp
  · exact evalFilter_getAccessFilters_cross_org organizationId userId visibility
      additionalFilters m hkeys hm

/-- C10 witness: a public document of `org2` passes the direct check for an
`org1` caller but fails the `org1` access filter. -/
theorem documentAccessCheck_cross_org_public_witness :
    (([(("organization_id" : String), MVal.str "org2"),
       ("visibility", MVal.str "public")] : Meta).lookup "organization_id"
        ≠ some (.str "org1"))
    ∧ (∀ kv ∈ ([] : Filter), kv.1 ≠ "organization_id")
    ∧ ((documentAccessCheck
          [("organization_id", MVal.str "org2"), ("visibility", MVal.str "public")]
          "alice" "org1" = true ↔
        ([(("organization_id" : String), MVal.str "org2"),
          ("visibility", MVal.str "public")] : Meta).lookup "visibility" =
          some (.str "public"))
      ∧ evalFilter (getAccessFilters "org1" "alice" none [])
          [("organization_id", MVal.str "org2"), ("visibility", MVal.str "public")] =
        false) :=
  ⟨by decide, by decide,
   documentAccessCheck_cross_org_public
     [("organization_id", MVal.str "org2"), ("visibility", MVal.str "public")]
     "alice" "org1" none [] (by decide) (by decide)⟩

/-! ### ChromaDB shared-collection backend
(`services/vector_databases/chroma.py`).  The remote collection is modelled
as an association list from document id to document.  `collection.get(ids=…)`
returns the requested documents that exist, in request order, omitting
missing ids — which is exactly what makes the index bookkeeping in
`delete_documents` unsound. -/

/-- A stored ChromaDB document (embeddings are opaque; modelled as `List Int`). -/
structure CDoc where
  text : String
  embedding : List Int
  meta : Meta
deriving DecidableEq, Repr

/-- The shared physical collection: id → document. -/
abbrev CStore := List (String × CDoc)

/-- `collection.get(ids=…, include=…)`: the existing requested documents
paired with their ids, in request order, missing ids silently omitted. -/
def collectionGetIds (store : CStore) (ids : List String) : List (String × CDoc) :=
  ids.filterMap (fun i => (store.lookup i).map (fun d => (i, d)))

/-- `ChromaDBProvider.get_document` (lines 274-319): fetch by id, then for
shared collections reject the document if its stored `organization_id`
differs from the provider's. -/
def chromaGetDocument (store : CStore) (selfOrg : String) (shared : Bool)
    (documentId : String) : Option (String × CDoc) :=
  match collectionGetIds store [documentId] with
  | [] => none
  | r :: _ =>
    if shared ∧ r.2.meta.lookup "organization_id" ≠ some (.str selfOrg) then none
    else some r

/-- `ChromaDBProvider.update_document` (lines 199-272): fetch by id; absent →
false; shared collection with foreign `organization_id` → false without
mutation; otherwise replace the provided fields (stamping the organization
into replacement metadata that lacks it) and return true. -/
def chromaUpdateDocument (store : CStore) (selfOrg : String) (shared : Bool)
    (documentId : String) (text : Option String) (embedding : Option (List Int))
    (metadata : Option Meta) : Bool × CStore :=
  match collectionGetIds store [documentId] with
  | [] => (false, store)
  | r :: _ =>
    if shared ∧ r.2.meta.lookup "organization_id" ≠ some (.str selfOrg) then
      (false, store)
    else
      let newMeta : Meta :=
        match metadata with
        | none => r.2.meta
        | some md =>
          if shared ∧ ¬ md.any (fun kv => kv.1 = "organization_id") then
            md ++ [("organization_id", .str selfOrg)]
          else md
      let newDoc : CDoc :=
        { text := text.getD r.2.text,
          embedding := embedding.getD r.2.embedding,
          meta := newMeta }
      (true, store.map (fun kv => if kv.1 = documentId then (documentId, newDoc) else kv))

/-- `ChromaDBProvider.delete_documents` (lines 157-197).  For a shared
collection it fetches the requested documents, then keeps
`document_ids[i]` for every position `i` of the *fetched* list whose
metadata carries the provider's organization — indexing the original
request list by the position in the fetched list, which omits missing ids. -/
def chromaDeleteDocuments (store : CStore) (selfOrg : String) (shared : Bool)
    (documentIds : List String) : Bool × CStore :=
  if shared then
    let results := collectionGetIds store documentIds
    let filteredIds : List String :=
      (results.zip (List.range results.length)).filterMap (fun p =>
        if p.1.2.meta.lookup "organization_id" = some (.str selfOrg) then
          documentIds[p.2]?
        else none)
    if filteredIds = [] then (true, store)
    else (true, store.filter (fun kv => kv.1 ∉ filteredIds))
  else
    (true, store.filter (fun kv => kv.1 ∉ documentIds))

/-- Two-organization store: one document of `orgA`, one of `orgB`. -/
def crossOrgStore : CStore :=
  [("own1", { text := "own document", embedding := [],
              meta := [("organization_id", .str "orgA"), ("user_id", .str "alice")] }),
   ("cross1", { text := "foreign document", embedding := [],
                meta := [("organization_id", .str "orgB"), ("user_id", .str "bob")] })]

/-! ### Claim C2 -/

/-- C2 failing input: `delete_documents` on a shared collection called by
`orgA` with `["missing1", "cross1", "own1"]` where `missing1` does not
exist.  The fetched list is `[cross1, own1]`; position 1 (metadata of
`own1`, organization `orgA`) selects `document_ids[1] = "cross1"`, so the
`orgB` document is deleted even though its organization differs, while the
caller's own document survives.  (`get_document` and `update_document` do
reject the cross-organization document on the same store.) -/
theorem chromaDeleteDocuments_cross_org_bug :
    (chromaDeleteDocuments crossOrgStore "orgA" true
        ["missing1", "cross1", "own1"]).2.lookup "cross1" = none
    ∧ crossOrgStore.lookup "cross1" ≠ none
    ∧ ((chromaDeleteDocuments crossOrgStore "orgA" true
        ["missing1", "cross1", "own1"]).2.lookup "own1").isSome = true
    ∧ chromaGetDocument crossOrgStore "orgA" true "cross1" = none
    ∧ chromaUpdateDocument crossOrgStore "orgA" true "cross1"
        (some "defaced") none none = (false, crossOrgStore) := by
  refine ⟨rfl, by decide, rfl, rfl, rfl⟩

/-! ### Provider registries
(`services/llm_providers/__init__.py` and
`services/vector_databases/__init__.py`).  Instance identity is modelled by
a `Nat` token drawn from a counter, so "identity-same instance" becomes
equality of tokens; the registry cache and the counter form the state. -/

/-- Log levels of the `logging` calls the registries make. -/
inductive LogLevel where
  | error
  | warning
  | info
deriving DecidableEq, Repr

/-- `get_llm_provider`, lines 58-64: name lookup with fallback to the
configured default.  If the tenant's configured name is unregistered, the
code logs at *error* level and retries with `settings.DEFAULT_LLM_PROVIDER`;
a lookup miss on the default itself raises `KeyError`
(`_PROVIDER_REGISTRY[provider_name]`). -/
def resolveLlmFactory {φ : Type} (registry : List (String × φ))
    (defaultName tenantName : String) :
    Except String φ × List (LogLevel × String) :=
  match registry.lookup tenantName with
  | some f => (.ok f, [])
  | none =>
    let logs := [(LogLevel.error, "LLM provider not found: " ++ tenantName)]
    match registry.lookup defaultName with
    | some f => (.ok f, logs)
    | none => (.error "KeyError", logs)

/-- `get_vector_db`, lines 65-71: the identical fallback for vector
databases (also logged at error level; `settings.DEFAULT_VECTOR_DB`). -/
def resolveVectorDbFactory {φ : Type} (registry : List (String × φ))
    (defaultName vectorDbName : String) :
    Except String φ × List (LogLevel × String) :=
  match registry.lookup vectorDbName with
  | some f => (.ok f, [])
  | none =>
    let logs := [(LogLevel.error, "Vector database not found: " ++ vectorDbName)]
    match registry.lookup defaultName with
    | some f => (.ok f, logs)
    | none => (.error "KeyError", logs)

/-- Registry state: the per-process instance cache
(`_PROVIDER_INSTANCES` / `_VECTOR_DB_INSTANCES`, cache key → instance
token) plus the construction counter that mints instance identities. -/
structure RegState where
  instances : List (String × Nat)
  nextId : Nat
deriving DecidableEq, Repr

/-- All cached instance tokens were minted before the counter's current
value (true of every state reachable from the empty one). -/
def RegState.wf (s : RegState) : Prop :=
  ∀ kv ∈ s.instances, kv.2 < s.nextId

/-- Composite cache key `f"{scope}:{provider_name}"`. -/
def regCacheKey (scope providerName : String) : String :=
  scope ++ ":" ++ providerName

/-- Shared resolve-and-cache skeleton of `get_llm_provider` (lines 49-84)
and `get_vector_db` (lines 49-89): return the cached instance under the
cache key if present (note the key uses the *tenant-configured* name even
when the registry falls back to the default); otherwise resolve the factory
(with default fallback, `KeyError` if both miss), construct a fresh
instance and cache it. -/
def registryResolve (registered : List String) (defaultName tenantName key : String)
    (s : RegState) : Except String (Nat × RegState) :=
  match s.instances.lookup key with
  | some inst => .ok (inst, s)
  | none =>
    let name := if tenantName ∈ registered then tenantName else defaultName
    if name ∈ registered then
      .ok (s.nextId, { instances := (key, s.nextId) :: s.instances,
                       nextId := s.nextId + 1 })
    else
      .error "KeyError"

/-- `get_llm_provider`: cache key scoped by organization. -/
def getLlmProviderSt (registered : List String) (defaultName tenantName organizationId : String)
    (s : RegState) : Except String (Nat × RegState) :=
  registryResolve registered defaultName tenantName
    (regCacheKey organizationId tenantName) s

/-- `get_vector_db`: cache key scoped by organization, or by the constant
`"shared"` scope when the tenant uses the shared vector database. -/
def getVectorDbSt (registered : List String) (defaultName vectorDbName organizationId : String)
    (shared : Bool) (s : RegState) : Except String (Nat × RegState) :=
  registryResolve registered defaultName vectorDbName
    (if shared then regCacheKey "shared" vectorDbName
     else regCacheKey organizationId vectorDbName) s

/-- `clear_provider_cache` / `clear_vector_db_cache`: `.clear()` on the
instance dict. -/
def clearRegistryCache (s : RegState) : RegState :=
  { s with instances := [] }

theorem registryResolve_miss_eq (registered : List String)
    (defaultName tenantName key : String) (s : RegState)
    (hmiss : s.instances.lookup key = none) :
    registryResolve registered defaultName tenantName key s =
      (if (if tenantName ∈ registered then tenantName else defaultName) ∈ registered
       then .ok (s.nextId, { instances := (key, s.nextId) :: s.instances,
                             nextId := s.nextId + 1 })
       else .error "KeyError") := by
  simp only [registryResolve, hmiss]

theorem registryResolve_idempotent (registered : List String)
    (defaultName tenantName key : String) {s₀ s₁ : RegState} {i₁ : Nat}
    (hwf : s₀.wf)
    (h₁ : registryResolve registered defaultName tenantName key s₀ = .ok (i₁, s₁)) :
    registryResolve registered defaultName tenantName key s₁ = .ok (i₁, s₁)
    ∧ i₁ < s₁.nextId
    ∧ (∀ i₃ s₃,
        registryResolve registered defaultName tenantName key (clearRegistryCache s₁)
          = .ok (i₃, s₃) → i₃ ≠ i₁) := by
  have hclear : ∀ (s : RegState) (i₃ : Nat) (s₃ : RegState),
      registryResolve registered defaultName tenantName key (clearRegistryCache s)
        = .ok (i₃, s₃) → i₃ = s.nextId := by
    intro s i₃ s₃ h₃
    rw [registryResolve_miss_eq registered defaultName tenantName key
      (clearRegistryCache s) rfl] at h₃
    by_cases hreg : (if tenantName ∈ registered then tenantName else defaultName)
        ∈ registered
    · rw [if_pos hreg] at h₃
      injection h₃ with h₃
      exact (congrArg Prod.fst h₃).symm
    · rw [if_neg hreg] at h₃
      exact Except.noConfusion h₃
  cases hcache0 : s₀.instances.lookup key with
  | some inst0 =>
    simp only [registryResolve, hcache0] at h₁
    injection h₁ with h₁
    have hi : inst0 = i₁ := congrArg Prod.fst h₁
    have hs : s₀ = s₁ := congrArg Prod.snd h₁
    subst hs
    subst hi
    refine ⟨by simp only [registryResolve, hcache0], ?_, ?_⟩
    · exact hwf _ (mem_of_lookup_eq_some hcache0)
    · intro i₃ s₃ h₃
      rw [hclear s₀ i₃ s₃ h₃]
      exact Nat.ne_of_gt (hwf _ (mem_of_lookup_eq_some hcache0))
  | none =>
    rw [registryResolve_miss_eq registered defaultName tenantName key s₀ hcache0] at h₁
    by_cases hreg : (if tenantName ∈ registered then tenantName else defaultName)
        ∈ registered
    · rw [if_pos hreg] at h₁
      injection h₁ with h₁
      have hi : s₀.nextId = i₁ := congrArg Prod.fst h₁
      have hs : ({ instances := (key, s₀.nextId) :: s₀.instances,
                   nextId := s₀.nextId + 1 } : RegState) = s₁ := congrArg Prod.snd h₁
      subst hi
      subst hs
      refine ⟨?_, Nat.lt_succ_self _, ?_⟩
      · simp [registryResolve, lookup_cons']
      · intro i₃ s₃ h₃
        rw [hclear _ i₃ s₃ h₃]
        exact Nat.ne_of_gt (Nat.lt_succ_self _)
    · rw [if_neg hreg] at h₁
      exact Except.noConfusion h₁

/-! ### Claim C6 -/

/-- C6: for a fixed organization and unchanged tenant configuration, a
second call to `get_llm_provider` (resp. `get_vector_db`) returns the very
same cached instance and leaves the state unchanged — hence every
subsequent call does too — and after `clear_provider_cache` /
`clear_vector_db_cache` a freshly constructed (different) instance is
returned. -/
theorem provider_registry_cache_idempotent
    (registeredL registeredV : List String)
    (defaultL defaultV tenantName vectorDbName organizationId : String)
    (shared : Bool) (s₀ s₁ t₀ t₁ : RegState) (i₁ j₁ : Nat)
    (hwfL : s₀.wf) (hwfV : t₀.wf)
    (hL : getLlmProviderSt registeredL defaultL tenantName organizationId s₀
            = .ok (i₁, s₁))
    (hV : getVectorDbSt registeredV defaultV vectorDbName organizationId shared t₀
            = .ok (j₁, t₁)) :
    (getLlmProviderSt registeredL defaultL tenantName organizationId s₁
        = .ok (i₁, s₁)
      ∧ ∀ i₃ s₃,
          getLlmProviderSt registeredL defaultL tenantName organizationId
              (clearRegistryCache s₁) = .ok (i₃, s₃) → i₃ ≠ i₁)
    ∧ (getVectorDbSt registeredV defaultV vectorDbName organizationId shared t₁
        = .ok (j₁, t₁)
      ∧ ∀ j₃ t₃,
          getVectorDbSt registeredV defaultV vectorDbName organizationId shared
              (clearRegistryCache t₁) = .ok (j₃, t₃) → j₃ ≠ j₁) := by
  have hL2 := registryResolve_idempotent registeredL defaultL tenantName
    (regCacheKey organizationId tenantName) hwfL hL
  have hV2 := registryResolve_idempotent registeredV defaultV vectorDbName
    (if shared then regCacheKey "shared" vectorDbName
     else regCacheKey organizationId vectorDbName) hwfV hV
  exact ⟨⟨hL2.1, hL2.2.2⟩, ⟨hV2.1, hV2.2.2⟩⟩

/-- C6 witness: the initial static registration (`openai`, `ollama` /
`chroma`, `qdrant`) with empty caches; the first call constructs instance 0,
the second returns it unchanged, and after clearing a different instance is
constructed. -/
theorem provider_registry_cache_idempotent_witness :
    (RegState.wf { instances := [], nextId := 0 })
    ∧ getLlmProviderSt ["openai", "ollama"] "openai" "openai" "org1"
        { instances := [], nextId := 0 }
        = .ok (0, { instances := [(regCacheKey "org1" "openai", 0)], nextId := 1 })
    ∧ getVectorDbSt ["chroma", "qdrant"] "chroma" "chroma" "org1" true
        { instances := [], nextId := 0 }
        = .ok (0, { instances := [(regCacheKey "shared" "chroma", 0)], nextId := 1 })
    ∧ ((getLlmProviderSt ["openai", "ollama"] "openai" "openai" "org1"
          { instances := [(regCacheKey "org1" "openai", 0)], nextId := 1 }
          = .ok (0, { instances := [(regCacheKey "org1" "openai", 0)], nextId := 1 })
        ∧ ∀ i₃ s₃,
            getLlmProviderSt ["openai", "ollama"] "openai" "openai" "org1"
                (clearRegistryCache
                  { instances := [(regCacheKey "org1" "openai", 0)], nextId := 1 })
              = .ok (i₃, s₃) → i₃ ≠ 0)
      ∧ (getVectorDbSt ["chroma", "qdrant"] "chroma" "chroma" "org1" true
          { instances := [(regCacheKey "shared" "chroma", 0)], nextId := 1 }
          = .ok (0, { instances := [(regCacheKey "shared" "chroma", 0)], nextId := 1 })
        ∧ ∀ j₃ t₃,
            getVectorDbSt ["chroma", "qdrant"] "chroma" "chroma" "org1" true
                (clearRegistryCache
                  { instances := [(regCacheKey "shared" "chroma", 0)], nextId := 1 })
              = .ok (j₃, t₃) → j₃ ≠ 0)) :=
  ⟨by intro kv h; simp at h, rfl, rfl,
   provider_registry_cache_idempotent ["openai", "ollama"] ["chroma", "qdrant"]
     "openai" "chroma" "openai" "chroma"
     "org1" true { instances := [], nextId := 0 }
     { instances := [(regCacheKey "org1" "openai", 0)], nextId := 1 }
     { instances := [], nextId := 0 }
     { instances := [(regCacheKey "shared" "chroma", 0)], nextId := 1 }
     0 0 (by intro kv h; simp at h) (by intro kv h; simp at h)
     rfl rfl⟩

/-! ### Claim C7 -/

/-- C7 counterexample: the fallback to the default provider name is logged
at *error* level (`logger.error`, `llm_providers/__init__.py` line 60 and
`vector_databases/__init__.py` line 67), not as a warning as the claim
states. -/
theorem provider_fallback_logs_error_counterexample :
    ((resolveLlmFactory [("openai", 0), ("ollama", 1)] "openai" "bogus").2.map
        Prod.fst = [LogLevel.error])
    ∧ ((resolveVectorDbFactory [("chroma", 0), ("qdrant", 1)] "chroma" "bogus").2.map
        Prod.fst = [LogLevel.error])
    ∧ LogLevel.error ≠ LogLevel.warning := by
  refine ⟨rfl, rfl, by decide⟩

/-- C7 (amended): when the organization's configured provider name is not
registered, both registries fall back to the configured default name and
return the instance factory registered under it without raising — logging
the fallback at *error* (not warning) level.  (If the default name itself
were unregistered the subsequent registry lookup would raise `KeyError`;
with the shipped defaults `openai`/`chroma`, which are statically
registered, that cannot happen.) -/
theorem provider_fallback_to_default {φ : Type} (registry : List (String × φ))
    (defaultName tenantName : String) (f : φ)
    (hmiss : registry.lookup tenantName = none)
    (hdef : registry.lookup defaultName = some f) :
    resolveLlmFactory registry defaultName tenantName =
      (.ok f, [(LogLevel.error, "LLM provider not found: " ++ tenantName)])
    ∧ resolveVectorDbFactory registry defaultName tenantName =
      (.ok f, [(LogLevel.error, "Vector database not found: " ++ tenantName)]) := by
  constructor
  · unfold resolveLlmFactory
    rw [hmiss, hdef]
  · unfold resolveVectorDbFactory
    rw [hmiss, hdef]

/-- C7 witness: tenant configured with the unregistered name `"bogus"`
falls back to the default `"openai"` (resp. `"chroma"`) factory. -/
theorem provider_fallback_to_default_witness :
    (([("openai", 7), ("ollama", 8)] : List (String × Nat)).lookup "bogus" = none)
    ∧ (([("openai", 7), ("ollama", 8)] : List (String × Nat)).lookup "openai" = some 7)
    ∧ (resolveLlmFactory [("openai", 7), ("ollama", 8)] "openai" "bogus" =
        (.ok 7, [(LogLevel.error, "LLM provider not found: " ++ "bogus")])
      ∧ resolveVectorDbFactory [("openai", 7), ("ollama", 8)] "openai" "bogus" =
        (.ok 7, [(LogLevel.error, "Vector database not found: " ++ "bogus")])) :=
  ⟨by decide, by decide,
   provider_fallback_to_default [("openai", 7), ("ollama", 8)] "openai" "bogus" 7
     (by decide) (by decide)⟩

/-! ### OpenAI batch embeddings (`services/llm_providers/openai.py`,
`get_embeddings`, lines 200-243).  The backend call
`client.embeddings.create` is modelled as a function from a batch of texts
to a list of (index, embedding) response items; the code sorts each
response by its `index` field before appending the embeddings. -/

/-- `for i in range(0, len(texts), batch_size)` with `batch_size = 100`:
split the input into consecutive chunks of 100. -/
def chunk100 {α : Type} : List α → List (List α)
  | [] => []
  | t :: ts => ((t :: ts).take 100) :: chunk100 ((t :: ts).drop 100)
termination_by l => l.length
decreasing_by simp [List.length_drop]; omega

theorem chunk100_flatten {α : Type} : ∀ (l : List α), (chunk100 l).flatten = l
  | [] => by simp [chunk100]
  | t :: ts => by
    rw [chunk100, List.flatten_cons, chunk100_flatten ((t :: ts).drop 100),
      List.take_append_drop]
termination_by l => l.length
decreasing_by simp [List.length_drop]; omega

instance decRelIdxLe {E : Type} :
    DecidableRel (fun (a b : Nat × E) => a.1 ≤ b.1) :=
  fun a b => Nat.decLe a.1 b.1

instance isTotalIdxLe {E : Type} : IsTotal (Nat × E) (fun a b => a.1 ≤ b.1) :=
  ⟨fun a b => Nat.le_total a.1 b.1⟩

instance isTransIdxLe {E : Type} : IsTrans (Nat × E) (fun a b => a.1 ≤ b.1) :=
  ⟨fun _ _ _ => Nat.le_trans⟩

/-- `sorted(response.data, key=lambda x: x.index)`: sort response items by
their returned index (Python's sort is stable; indices here are distinct, so
any correct sort yields the same list). -/
def sortByIndex {E : Type} (l : List (Nat × E)) : List (Nat × E) :=
  l.insertionSort (fun a b => a.1 ≤ b.1)

/-- `OpenAIProvider.get_embeddings`: process the texts in batches of 100,
sort each backend response by index, and append the embeddings in order. -/
def openaiGetEmbeddings {E : Type} (backend : List String → List (Nat × E))
    (texts : List String) : List E :=
  (chunk100 texts).foldl
    (fun allEmbeddings batch =>
      allEmbeddings ++ (sortByIndex (backend batch)).map Prod.snd)
    []

theorem pairwise_lt_enumFrom {E : Type} :
    ∀ (l : List E) (n : Nat),
      (List.enumFrom n l).Pairwise (fun a b => a.1 < b.1) := by
  intro l
  induction l with
  | nil => intro n; simp
  | cons x xs ih =>
    intro n
    rw [List.enumFrom_cons, List.pairwise_cons]
    refine ⟨?_, ih (n + 1)⟩
    intro p hp
    match p with
    | (i, y) =>
      have := (List.mem_enumFrom hp).1
      omega

/-- A ≤-sorted list that is a permutation of a strictly-sorted list equals
it (keys are distinct, so sorting is unambiguous). -/
theorem eq_of_perm_sorted_le_lt {E : Type} :
    ∀ {l₂ l₁ : List (Nat × E)}, l₁.Perm l₂ →
      l₁.Pairwise (fun a b => a.1 ≤ b.1) →
      l₂.Pairwise (fun a b => a.1 < b.1) → l₁ = l₂ := by
  intro l₂
  induction l₂ with
  | nil => intro l₁ hp _ _; exact hp.eq_nil
  | cons a t ih =>
    intro l₁ hp h₁ h₂
    match l₁ with
    | [] => exact absurd hp.symm.eq_nil (by simp)
    | b :: s =>
      rcases List.pairwise_cons.mp h₁ with ⟨hble, h₁s⟩
      rcases List.pairwise_cons.mp h₂ with ⟨halt, h₂t⟩
      by_cases hab : b = a
      · subst hab
        rw [ih (hp.cons_inv) h₁s h₂t]
      · exfalso
        have hbmem : b ∈ a :: t := hp.mem_iff.mp (List.mem_cons_self ..)
        have hbt : b ∈ t := by
          rcases List.mem_cons.mp hbmem with h | h
          · exact absurd h hab
          · exact h
        have hamem : a ∈ b :: s := hp.mem_iff.mpr (List.mem_cons_self ..)
        have has : a ∈ s := by
          rcases List.mem_cons.mp hamem with h | h
          · exact absurd h.symm hab
          · exact h
        have h1 : a.1 < b.1 := halt b hbt
        have h2 : b.1 ≤ a.1 := hble a has
        omega

theorem sortByIndex_of_perm_enum {E : Type} {lb : List (Nat × E)} {xs : List E}
    (hb : lb.Perm xs.enum) : sortByIndex lb = xs.enum := by
  apply eq_of_perm_sorted_le_lt ((List.perm_insertionSort _ lb).trans hb)
  · exact List.sorted_insertionSort _ lb
  · exact pairwise_lt_enumFrom xs 0

theorem foldl_append_map {E : Type} (g : List String → List E) :
    ∀ (chunks : List (List String)) (acc : List E),
      chunks.foldl (fun a b => a ++ g b) acc = acc ++ (chunks.map g).flatten := by
  intro chunks
  induction chunks with
  | nil => intro acc; simp
  | cons c rest ih =>
    intro acc
    rw [List.foldl_cons, ih, List.map_cons, List.flatten_cons, List.append_assoc]

/-! ### Claim C8 -/

/-- C8: whenever each backend response is some permutation of the correctly
indexed embeddings of its batch (index `i` ↦ embedding of the batch's `i`-th
text), `get_embeddings` returns exactly one embedding per input text, in
input order, regardless of the batching into chunks of 100 and of the
permutation — because each response is re-sorted by its returned index. -/
theorem openaiGetEmbeddings_order {E : Type}
    (backend : List String → List (Nat × E)) (f : String → E) (texts : List String)
    (hb : ∀ batch ∈ chunk100 texts, (backend batch).Perm (batch.map f).enum) :
    openaiGetEmbeddings backend texts = texts.map f
    ∧ (openaiGetEmbeddings backend texts).length = texts.length := by
  have hmain : openaiGetEmbeddings backend texts = texts.map f := by
    unfold openaiGetEmbeddings
    rw [foldl_append_map, List.nil_append]
    have hcongr : (chunk100 texts).map (fun b => (sortByIndex (backend b)).map Prod.snd)
        = (chunk100 texts).map (fun b => b.map f) := by
      apply List.map_congr_left
      intro b hbmem
      rw [sortByIndex_of_perm_enum (hb b hbmem), List.enum_map_snd]
    rw [hcongr, ← List.map_flatten, chunk100_flatten]
  exact ⟨hmain, by rw [hmain, List.length_map]⟩

/-- C8 witness: three texts, a backend that answers with the response items
reversed; the sorted result is still in input order. -/
theorem openaiGetEmbeddings_order_witness :
    (∀ batch ∈ chunk100 ["alpha", "be", "gamma"],
      ((fun (b : List String) => ((b.map String.length).enum).reverse) batch).Perm
        ((batch.map String.length).enum))
    ∧ (openaiGetEmbeddings
          (fun (b : List String) => ((b.map String.length).enum).reverse)
          ["alpha", "be", "gamma"] = ["alpha", "be", "gamma"].map String.length
      ∧ (openaiGetEmbeddings
          (fun (b : List String) => ((b.map String.length).enum).reverse)
          ["alpha", "be", "gamma"]).length
          = (["alpha", "be", "gamma"] : List String).length) := by
  have hchunk : chunk100 (["alpha", "be", "gamma"] : List String)
      = [["alpha", "be", "gamma"]] := by
    simp only [chunk100]
    rw [List.take_of_length_le (by simp), List.drop_eq_nil_of_le (by simp)]
    simp [chunk100]
  have hb : ∀ batch ∈ chunk100 (["alpha", "be", "gamma"] : List String),
      ((fun (b : List String) => ((b.map String.length).enum).reverse) batch).Perm
        ((batch.map String.length).enum) := by
    intro batch hmem
    rw [hchunk] at hmem
    rw [List.mem_singleton.mp hmem]
    exact List.reverse_perm _
  exact ⟨hb,
    openaiGetEmbeddings_order
      (fun (b : List String) => ((b.map String.length).enum).reverse)
      String.length ["alpha", "be", "gamma"] hb⟩

/-! ### RAG answer generation (`services/rag/generator.py`,
`generate_answer`, lines 13-139).  The LLM provider's `generate` is a
function of (prompt, system_message); the retrieval result is the value the
awaited `retrieve_relevant_documents` call produced. -/

/-- A retrieved document as returned by the vector database search. -/
structure RagDoc where
  id : String
  text : String
  meta : Meta
  score : Int
deriving DecidableEq, Repr

/-- Render a metadata value the way a Python f-string would. -/
def mvalToString : MVal → String
  | .str s => s
  | .list ss => String.intercalate ", " ss
  | .int n => toString n

/-- `format_documents_for_context`, lines 269-306: each document rendered
with its available title/source/URL/date/author fields and its text. -/
def formatDoc (i : Nat) (d : RagDoc) : String :=
  let sourceInfo :=
    (match d.meta.lookup "title" with
     | some v => ["Title: " ++ mvalToString v] | none => []) ++
    (match d.meta.lookup "source" with
     | some v => ["Source: " ++ mvalToString v] | none => []) ++
    (match d.meta.lookup "url" with
     | some v => ["URL: " ++ mvalToString v] | none => []) ++
    (match d.meta.lookup "date" with
     | some v => ["Date: " ++ mvalToString v] | none => []) ++
    (match d.meta.lookup "author" with
     | some v => ["Author: " ++ mvalToString v] | none => [])
  if sourceInfo ≠ [] then
    "Document " ++ toString (i + 1) ++ " (" ++ String.intercalate " | " sourceInfo
      ++ "):\n" ++ d.text ++ "\n"
  else
    "Document " ++ toString (i + 1) ++ ":\n" ++ d.text ++ "\n"

def formatDocumentsForContext (documents : List RagDoc) : String :=
  String.intercalate "\n" (documents.enum.map (fun p => formatDoc p.1 p.2))

/-- The default "insufficient information" system message used for
ungrounded generation when retrieval yields nothing (lines 56-59). -/
def defaultFallbackSystem : String :=
  "You are a helpful assistant. If you don\x27t know the answer to a question, just say that you don\x27t have enough information to provide a reliable answer."

/-- The default RAG system message used when documents were retrieved
(lines 91-97). -/
def defaultRagSystem : String :=
  "You are a helpful assistant with access to a knowledge base. Answer the user\x27s question based on the provided context. If the context doesn\x27t contain the necessary information to answer the question, just say that you don\x27t have enough information to provide a reliable answer. Don\x27t make up information that\x27s not in the context."

/-- The fixed-template RAG prompt (lines 100-107). -/
def ragPrompt (query context : String) : String :=
  "I need information about the following question:\n" ++ query ++
  "\n\nHere is the relevant context from our knowledge base:\n\n" ++ context ++
  "\n\nBased on this context, please provide a comprehensive answer to the question."

/-- `generate_answer`, lines 52-128, after the retrieval call: with zero
documents, generate ungrounded with the caller's system message or the
default fallback and return an empty documents list; otherwise build the
context block and RAG prompt and return the retrieved documents untouched. -/
def generateAnswer (llm : String → String → String) (retrieved : List RagDoc)
    (query : String) (systemMessage : Option String) : String × List RagDoc :=
  match retrieved with
  | [] => (llm query (systemMessage.getD defaultFallbackSystem), [])
  | _ :: _ =>
    (llm (ragPrompt query (formatDocumentsForContext retrieved))
       (systemMessage.getD defaultRagSystem),
     retrieved)

/-! ### Claim C9 -/

/-- C9: when retrieval yields zero documents, `generate_answer` answers by
ungrounded generation with the default "insufficient information" system
message (or the caller's system message when supplied) and an empty
`documents_used` list — and the answer is non-empty whenever the provider
never returns an empty string; when retrieval yields documents, the
returned `documents_used` list is exactly the retrieved list, unmodified. -/
theorem generateAnswer_fallback_and_documents
    (llm : String → String → String) (query : String)
    (systemMessage : Option String) (retrieved : List RagDoc)
    (hllm : ∀ p s, llm p s ≠ "") :
    (generateAnswer llm [] query systemMessage
        = (llm query (systemMessage.getD defaultFallbackSystem), [])
      ∧ (generateAnswer llm [] query systemMessage).1 ≠ ""
      ∧ (generateAnswer llm [] query none).1
          = llm query defaultFallbackSystem)
    ∧ (retrieved ≠ [] →
        (generateAnswer llm retrieved query systemMessage).2 = retrieved) := by
  refine ⟨⟨rfl, hllm query (systemMessage.getD defaultFallbackSystem), rfl⟩, ?_⟩
  intro hne
  match retrieved with
  | [] => exact absurd rfl hne
  | _ :: _ => rfl

/-- C9 witness: a provider that always answers `"answer"`; with zero
retrieved documents the fallback system message is used and
`documents_used` is empty; with one retrieved document it is returned
unmodified. -/
theorem generateAnswer_fallback_and_documents_witness :
    (∀ p s, (fun (_ _ : String) => "answer") p s ≠ "")
    ∧ ((generateAnswer (fun _ _ => "answer") [] "q" none
          = ((fun (_ _ : String) => "answer") "q"
              ((none : Option String).getD defaultFallbackSystem), [])
        ∧ (generateAnswer (fun _ _ => "answer") [] "q" none).1 ≠ ""
        ∧ (generateAnswer (fun _ _ => "answer") [] "q" none).1
            = (fun (_ _ : String) => "answer") "q" defaultFallbackSystem)
      ∧ (([⟨"d1", "text1", [], 5⟩] : List RagDoc) ≠ [] →
          (generateAnswer (fun _ _ => "answer")
            [⟨"d1", "text1", [], 5⟩] "q" none).2 = [⟨"d1", "text1", [], 5⟩])) :=
  ⟨by intro p s; simp,
   generateAnswer_fallback_and_documents (fun _ _ => "answer") "q" none
     [⟨"d1", "text1", [], 5⟩] (by intro p s; simp)⟩

/-! ### Agent instance cache (`services/agents/manager.py`).  The
`AgentManager._agent_cache` dict maps cache keys to in-memory `RAGAgent`
instances (modelled as `Nat` identity tokens). -/

abbrev AgentCache := List (String × Nat)

/-- `_get_agent_instance` (line 800): cache key `f"{organization_id}:{agent_id}"`. -/
def agentCacheKey (organizationId agentId : String) : String :=
  organizationId ++ ":" ++ agentId

/-- `_get_agent_instance` (lines 799-824): return the cached instance under
the composite key, else construct a fresh one and cache it there. -/
def getAgentInstanceCache (cache : AgentCache) (organizationId agentId : String)
    (fresh : Nat) : Nat × AgentCache :=
  let key := agentCacheKey organizationId agentId
  match cache.lookup key with
  | some a => (a, cache)
  | none => (fresh, (key, fresh) :: cache)

/-- The cache-invalidation step of `update_agent` (lines 702-704) and
`delete_agent` (lines 483-485):
`if agent_id in self._agent_cache: del self._agent_cache[agent_id]` —
note the key used is the bare `agent_id`, not the composite cache key. -/
def invalidateAgentCache (cache : AgentCache) (agentId : String) : AgentCache :=
  if (cache.lookup agentId).isSome then
    cache.filter (fun kv => kv.1 ≠ agentId)
  else cache

/-! ### Claim C4 -/

/-- C4 failing input: `_get_agent_instance` caches under
`"org1:agentA"`, but the invalidation in `update_agent`/`delete_agent`
deletes under the bare key `"agentA"`, which is never present — so after a
successful update or delete the stale instance is *still cached* under
`organization_id:agent_id`, contradicting the claim.  (In general the
composite key `org ++ ":" ++ agent` is strictly longer than `agent`, so the
deleted key can never equal a stored one.) -/
theorem agentCache_invalidation_misses_composite_key :
    (invalidateAgentCache
        (getAgentInstanceCache [] "org1" "agentA" 7).2 "agentA").lookup
      (agentCacheKey "org1" "agentA") = some 7
    ∧ (invalidateAgentCache
        (getAgentInstanceCache [] "org1" "agentA" 7).2 "agentA")
      = (getAgentInstanceCache [] "org1" "agentA" 7).2 := by
  exact ⟨rfl, rfl⟩

/-- Removing every binding with key `a` leaves lookups of other keys
untouched. -/
theorem lookup_filter_ne_key {β : Type} (k a : String) (l : List (String × β))
    (hne : k ≠ a) :
    List.lookup k (l.filter (fun kv => kv.1 ≠ a)) = List.lookup k l := by
  induction l with
  | nil => rfl
  | cons kv rest ih =>
    by_cases hk : kv.1 = a
    · rw [List.filter_cons, if_neg (by simp [hk]), ih, lookup_pair_cons,
        if_neg (fun he => hne (he.trans hk))]
    · rw [List.filter_cons, if_pos (by simp [hk]), lookup_pair_cons, lookup_pair_cons]
      by_cases hck : k = kv.1
      · rw [if_pos hck, if_pos hck]
      · rw [if_neg hck, if_neg hck, ih]

/-- General form: invalidation with the bare agent id never removes any
composite-key entry, because `org ++ ":" ++ agent` is longer than `agent`. -/
theorem invalidateAgentCache_preserves_composite (cache : AgentCache)
    (organizationId agentId : String) :
    (invalidateAgentCache cache agentId).lookup (agentCacheKey organizationId agentId)
      = cache.lookup (agentCacheKey organizationId agentId) := by
  have hne : agentCacheKey organizationId agentId ≠ agentId := by
    intro h
    have hlen := congrArg String.length h
    rw [agentCacheKey, String.length_append, String.length_append] at hlen
    have hone : (":" : String).length = 1 := rfl
    omega
  unfold invalidateAgentCache
  by_cases hc : (cache.lookup agentId).isSome
  · rw [if_pos hc]
    exact lookup_filter_ne_key _ _ _ hne
  · rw [if_neg hc]

/-! ### Agent deletion (`services/agents/manager.py`, `delete_agent`,
lines 372-508, and `get_agent`, lines 189-261), over the shared-collection
vector database.  Documents live in an id-keyed store; the agent metadata
document's text is the JSON encoding of the agent record. -/

/-- The JSON-encoded agent metadata record (fields relevant to deletion). -/
structure AgentRec where
  agentId : String
  createdBy : String
deriving DecidableEq, Repr

/-- A stored document's text: plain text for knowledge documents or a
JSON-encoded agent record for `document_type = "agent_metadata"` documents. -/
inductive DocText where
  | plain (s : String)
  | agentJson (a : AgentRec)
deriving DecidableEq, Repr

/-- `json.loads` of a document text as an agent record (failure raises). -/
def parseAgentText : DocText → Option AgentRec
  | .agentJson a => some a
  | .plain _ => none

structure MDoc where
  text : DocText
  meta : Meta
deriving DecidableEq, Repr

abbrev MStore := List (String × MDoc)

/-- A manager-level filter: a dict of field → string value.  A string field
matches by equality; a list-valued field matches by membership — the
association-filter semantics `{"associated_agents": agent_id}` relies on
(spec §4.7: the count is over documents whose `associated_agents` contains
the agent id). -/
def mMatches (flt : List (String × String)) (m : Meta) : Bool :=
  flt.all (fun kv =>
    match m.lookup kv.1 with
    | some (.str s) => s = kv.2
    | some (.list ss) => kv.2 ∈ ss
    | _ => false)

/-- `list_documents(filter, limit)` over the shared collection
(`chroma.py` lines 321-360, offset 0): the matching documents, first
`limit` of them. -/
def listDocumentsM (store : MStore) (flt : List (String × String)) (limit : Nat) :
    MStore :=
  (store.filter (fun kv => mMatches flt kv.2.meta)).take limit

/-- `count_documents(filter)` (`chroma.py` lines 372-405). -/
def countDocumentsM (store : MStore) (flt : List (String × String)) : Nat :=
  (store.filter (fun kv => mMatches flt kv.2.meta)).length

/-- `delete_documents` (`chroma.py` lines 157-197) as invoked by the agent
manager, shared-collection path; same index bookkeeping as
`chromaDeleteDocuments`. -/
def deleteDocumentsM (store : MStore) (selfOrg : String) (ids : List String) :
    Bool × MStore :=
  let results := ids.filterMap (fun i => (store.lookup i).map (fun d => (i, d)))
  let filteredIds : List String :=
    (results.zip (List.range results.length)).filterMap (fun p =>
      if p.1.2.meta.lookup "organization_id" = some (.str selfOrg) then ids[p.2]?
      else none)
  if filteredIds = [] then (true, store)
  else (true, store.filter (fun kv => kv.1 ∉ filteredIds))

/-- `update_document(id, metadata=…)` (`chroma.py` lines 199-272),
shared-collection path, metadata-only update as used by the manager. -/
def updateDocumentMetaM (store : MStore) (selfOrg : String) (documentId : String)
    (md : Meta) : Bool × MStore :=
  match store.lookup documentId with
  | none => (false, store)
  | some d =>
    if d.meta.lookup "organization_id" ≠ some (.str selfOrg) then (false, store)
    else
      let newMeta :=
        if md.any (fun kv => kv.1 = "organization_id") then md
        else md ++ [("organization_id", .str selfOrg)]
      (true, store.map (fun kv =>
        if kv.1 = documentId then (documentId, { d with meta := newMeta }) else kv))

/-- Python dict assignment on metadata (same as `dictSet` for filters). -/
def pySet {β : Type} (d : List (String × β)) (k : String) (v : β) :
    List (String × β) :=
  if d.any (fun e => e.1 = k) then
    d.map (fun e => if e.1 = k then (k, v) else e)
  else
    d ++ [(k, v)]

/-- The metadata mutation of `delete_agent`'s loop body (lines 469-481):
`metadata["associated_agents"].remove(agent_id)` (Python removes the first
occurrence) and, if the list became empty, delete the key. -/
def removeAgentAssociation (m : Meta) (agentId : String) : Meta :=
  match m.lookup "associated_agents" with
  | some (.list ss) =>
    let ss2 := ss.erase agentId
    if ss2 = [] then m.filter (fun kv => kv.1 ≠ "associated_agents")
    else pySet m "associated_agents" (.list ss2)
  | _ => m

/-- Loop guard (line 469): `"associated_agents" in metadata and agent_id in
metadata["associated_agents"]`, for the list-valued field (any non-list
value is excluded by the store well-formedness hypotheses below; on a
string value the Python test would be a substring test and the subsequent
`.remove` would raise). -/
def listsAgent (m : Meta) (agentId : String) : Bool :=
  match m.lookup "associated_agents" with
  | some (.list ss) => agentId ∈ ss
  | _ => false

/-- One iteration of `delete_agent`'s association-removal loop (lines
465-481); the metadata written comes from the scan snapshot. -/
def deleteAgentDocStep (selfOrg agentId : String) (st : MStore)
    (docPair : String × MDoc) : MStore :=
  if listsAgent docPair.2.meta agentId then
    (updateDocumentMetaM st selfOrg docPair.1
      (removeAgentAssociation docPair.2.meta agentId)).2
  else st

/-- The filter used to locate the agent metadata document (lines 395-399). -/
def agentMetaFilter (agentId organizationId : String) : List (String × String) :=
  [("agent_id", agentId), ("organization_id", organizationId),
   ("document_type", "agent_metadata")]

/-- The filter used to scan for associated documents (lines 456-460). -/
def assocFilter (agentId organizationId : String) : List (String × String) :=
  [("associated_agents", agentId), ("organization_id", organizationId)]

/-- `AgentManager.delete_agent` (lines 372-508): locate the metadata
document (limit 1), parse it, check `created_by == user_id`, delete the
metadata document, scan the documents associated with the agent —
**limit 1000** ("Set a reasonable limit") — and remove the association from
each (never deleting them).  Any exception (e.g. a parse failure) is caught
and yields `False`.  The cache invalidation it also performs is modelled by
`invalidateAgentCache`. -/
def deleteAgent (store : MStore) (agentId organizationId userId : String) :
    Bool × MStore :=
  match listDocumentsM store (agentMetaFilter agentId organizationId) 1 with
  | [] => (false, store)
  | agentDoc :: _ =>
    match parseAgentText agentDoc.2.text with
    | none => (false, store)
    | some ar =>
      if ar.createdBy ≠ userId then (false, store)
      else
        let del := deleteDocumentsM store organizationId [agentDoc.1]
        if del.1 = false then (false, del.2)
        else
          let st1 := del.2
          let assoc := listDocumentsM st1 (assocFilter agentId organizationId) 1000
          (true, assoc.foldl (deleteAgentDocStep organizationId agentId) st1)

/-- `AgentManager.get_agent` (lines 189-261): locate the metadata document;
absent → `None`; a JSON parse failure raises (propagated); otherwise the
parsed record together with the derived associated-document count. -/
def getAgentM (store : MStore) (agentId organizationId : String) :
    Except String (Option (AgentRec × Nat)) :=
  match listDocumentsM store (agentMetaFilter agentId organizationId) 1 with
  | [] => .ok none
  | agentDoc :: _ =>
    match parseAgentText agentDoc.2.text with
    | none => .error "json.loads"
    | some ar =>
      .ok (some (ar, countDocumentsM store (assocFilter agentId organizationId)))

/-! ### Generic association-list lemmas for the manager model -/

theorem lookup_mapUpdate_self {β : Type} {l : List (String × β)} {id : String}
    (nd : β) {w : β} (h : List.lookup id l = some w) :
    List.lookup id (l.map (fun kv => if kv.1 = id then (id, nd) else kv)) = some nd := by
  induction l with
  | nil => simp [List.lookup] at h
  | cons kv rest ih =>
    by_cases hk : kv.1 = id
    · rw [List.map_cons, if_pos hk, lookup_cons', if_pos rfl]
    · rw [lookup_pair_cons, if_neg (fun he => hk he.symm)] at h
      rw [List.map_cons, if_neg hk, lookup_pair_cons,
        if_neg (fun he => hk he.symm), ih h]

theorem lookup_mapUpdate_ne {β : Type} (l : List (String × β)) {id k : String}
    (nd : β) (hne : k ≠ id) :
    List.lookup k (l.map (fun kv => if kv.1 = id then (id, nd) else kv)) =
      List.lookup k l := by
  induction l with
  | nil => rfl
  | cons kv rest ih =>
    by_cases hk : kv.1 = id
    · rw [List.map_cons, if_pos hk, lookup_cons', if_neg hne, lookup_pair_cons,
        if_neg (fun he => hne (he.trans hk)), ih]
    · rw [List.map_cons, if_neg hk, lookup_pair_cons, lookup_pair_cons]
      by_cases hck : k = kv.1
      · rw [if_pos hck, if_pos hck]
      · rw [if_neg hck, if_neg hck, ih]

theorem map_fst_mapUpdate {β : Type} (l : List (String × β)) (id : String) (nd : β) :
    (l.map (fun kv => if kv.1 = id then (id, nd) else kv)).map Prod.fst =
      l.map Prod.fst := by
  rw [List.map_map]
  apply List.map_congr_left
  intro kv _
  by_cases hk : kv.1 = id
  · simp [hk]
  · simp [hk]

theorem lookup_filter_self_none {β : Type} (a : String) (l : List (String × β)) :
    List.lookup a (l.filter (fun kv => kv.1 ≠ a)) = none := by
  induction l with
  | nil => rfl
  | cons kv rest ih =>
    by_cases hk : kv.1 = a
    · rw [List.filter_cons, if_neg (by simp [hk])]
      exact ih
    · rw [List.filter_cons, if_pos (by simp [hk]), lookup_pair_cons,
        if_neg (fun he => hk he.symm)]
      exact ih

theorem lookup_of_mem_nodup {β : Type} {l : List (String × β)}
    (hnd : (l.map Prod.fst).Nodup) {k : String} {v : β} (hmem : (k, v) ∈ l) :
    List.lookup k l = some v := by
  induction l with
  | nil => simp at hmem
  | cons kv rest ih =>
    rw [List.map_cons, List.nodup_cons] at hnd
    rcases List.mem_cons.mp hmem with hh | ht
    · rw [← hh, lookup_cons', if_pos rfl]
    · rw [lookup_pair_cons]
      have hne : k ≠ kv.1 := by
        intro he
        exact hnd.1 (he ▸ List.mem_map_of_mem Prod.fst ht)
      rw [if_neg hne]
      exact ih hnd.2 ht

theorem any_key_of_lookup {β : Type} {l : List (String × β)} {k : String} {v : β}
    (h : List.lookup k l = some v) :
    l.any (fun e => e.1 = k) = true :=
  List.any_eq_true.mpr ⟨(k, v), mem_of_lookup_eq_some h, by simp⟩

theorem lookup_pySet_self {β : Type} (d : List (String × β)) (k : String) (v : β) :
    List.lookup k (pySet d k v) = some v := by
  unfold pySet
  by_cases hc : d.any (fun e => e.1 = k)
  · rw [if_pos hc]
    induction d with
    | nil => simp at hc
    | cons e rest ih =>
      by_cases hek : e.1 = k
      · rw [List.map_cons, if_pos hek, lookup_cons', if_pos rfl]
      · rw [List.map_cons, if_neg hek, lookup_pair_cons,
          if_neg (fun he => hek he.symm)]
        apply ih
        simpa [hek] using hc
  · rw [if_neg hc]
    have hkeys : ∀ kv ∈ d, kv.1 ≠ k := by
      intro kv hmem he
      exact hc (List.any_eq_true.mpr ⟨kv, hmem, by simp [he]⟩)
    rw [lookup_append_right hkeys, lookup_cons', if_pos rfl]

theorem lookup_pySet_ne {β : Type} (d : List (String × β)) {k k' : String} (v : β)
    (h : k' ≠ k) : List.lookup k' (pySet d k v) = List.lookup k' d := by
  unfold pySet
  by_cases hc : d.any (fun e => e.1 = k)
  · rw [if_pos hc]
    exact lookup_mapUpdate_ne d v h
  · rw [if_neg hc, lookup_append, lookup_cons', if_neg h]
    match List.lookup k' d with
    | none => rfl
    | some w => rfl

/-! ### Behaviour of the manager's primitive operations -/

theorem updateDocumentMetaM_run (store : MStore) (selfOrg id : String) (md : Meta)
    (d : MDoc) (hlook : store.lookup id = some d)
    (horg : d.meta.lookup "organization_id" = some (.str selfOrg))
    (hmd : md.any (fun kv => kv.1 = "organization_id") = true) :
    updateDocumentMetaM store selfOrg id md =
      (true, store.map (fun kv =>
        if kv.1 = id then (id, { d with meta := md }) else kv)) := by
  unfold updateDocumentMetaM
  rw [hlook]
  dsimp only
  rw [if_neg (fun hno => hno horg), if_pos hmd]

theorem updateDocumentMetaM_lookup_ne (store : MStore) (selfOrg id k : String)
    (md : Meta) (hne : k ≠ id) :
    ((updateDocumentMetaM store selfOrg id md).2).lookup k = store.lookup k := by
  unfold updateDocumentMetaM
  cases hl : store.lookup id with
  | none => rfl
  | some d =>
    dsimp only
    by_cases ho : d.meta.lookup "organization_id" ≠ some (.str selfOrg)
    · rw [if_pos ho]
    · rw [if_neg ho]
      dsimp only
      exact lookup_mapUpdate_ne store _ hne

theorem updateDocumentMetaM_map_fst (store : MStore) (selfOrg id : String)
    (md : Meta) :
    ((updateDocumentMetaM store selfOrg id md).2).map Prod.fst =
      store.map Prod.fst := by
  unfold updateDocumentMetaM
  cases hl : store.lookup id with
  | none => rfl
  | some d =>
    dsimp only
    by_cases ho : d.meta.lookup "organization_id" ≠ some (.str selfOrg)
    · rw [if_pos ho]
    · rw [if_neg ho]
      dsimp only
      exact map_fst_mapUpdate ..

theorem deleteDocumentsM_single_run (store : MStore) (selfOrg id : String) (d : MDoc)
    (hlook : store.lookup id = some d)
    (horg : d.meta.lookup "organization_id" = some (.str selfOrg)) :
    deleteDocumentsM store selfOrg [id] =
      (true, store.filter (fun kv => kv.1 ∉ ([id] : List String))) := by
  unfold deleteDocumentsM
  simp only [List.filterMap_cons, List.filterMap_nil, hlook, Option.map_some']
  simp only [List.length_cons, List.length_nil, List.range_succ, List.range_zero,
    List.nil_append, List.zip_cons_cons, List.zip_nil_right, List.filterMap_cons,
    List.filterMap_nil]
  rw [if_pos horg]
  simp

theorem deleteAgent_run (store : MStore) (agentId organizationId userId : String)
    (agentDoc : String × MDoc) (rest : MStore) (ar : AgentRec) (st1 : MStore)
    (hlist : listDocumentsM store (agentMetaFilter agentId organizationId) 1
      = agentDoc :: rest)
    (hparse : parseAgentText agentDoc.2.text = some ar)
    (hauth : ar.createdBy = userId)
    (hdel : deleteDocumentsM store organizationId [agentDoc.1] = (true, st1)) :
    deleteAgent store agentId organizationId userId =
      (true, (listDocumentsM st1 (assocFilter agentId organizationId) 1000).foldl
        (deleteAgentDocStep organizationId agentId) st1) := by
  unfold deleteAgent
  rw [hlist]
  dsimp only
  rw [hparse]
  dsimp only
  rw [if_neg (fun hno => hno hauth)]
  rw [hdel]
  rfl

/-! ### Claim C5: the 1000-document association-scan cap -/

def c5AgentMeta : Meta :=
  [("agent_id", .str "A"), ("organization_id", .str "org1"),
   ("user_id", .str "alice"), ("visibility", .str "private"),
   ("document_type", .str "agent_metadata")]

def c5AgentDoc : String × MDoc :=
  ("agentdoc", { text := .agentJson { agentId := "A", createdBy := "alice" },
                 meta := c5AgentMeta })

def c5AssocMeta : Meta :=
  [("organization_id", .str "org1"), ("user_id", .str "alice"),
   ("visibility", .str "shared"), ("associated_agents", .list ["A"])]

/-- The `i`-th knowledge document associated with agent `A`; its id is the
string of `i + 1` copies of `d`, so ids are pairwise distinct by length. -/
def c5AssocDoc (i : Nat) : String × MDoc :=
  (String.mk (List.replicate (i + 1) 'd'),
   { text := .plain "knowledge", meta := c5AssocMeta })

/-- An organization with one agent and 1001 documents associated with it. -/
def c5BigStore : MStore := c5AgentDoc :: (List.range 1001).map c5AssocDoc

theorem pair_fst {α β : Type} (a : α) (b : β) : (a, b).1 = a := rfl

theorem pair_snd {α β : Type} (a : α) (b : β) : (a, b).2 = b := rfl

theorem c5_assoc_id_length (i : Nat) : ((c5AssocDoc i).1).length = i + 1 := by
  show (List.replicate (i + 1) 'd').length = i + 1
  exact List.length_replicate ..

theorem c5_id_ne_agentdoc (i : Nat) : (c5AssocDoc i).1 ≠ "agentdoc" := by
  intro h
  have hd : List.replicate (i + 1) 'd' = "agentdoc".data := congrArg String.data h
  have h1 : (List.replicate (i + 1) 'd').head? = some 'd' := by
    rw [List.replicate_succ]
    rfl
  rw [hd] at h1
  have h2 : ("agentdoc".data).head? = some 'a' := rfl
  rw [h2] at h1
  exact absurd (Option.some.inj h1) (by decide)

/-- Preservation through the association-removal loop: a key none of the
scanned documents carries is never touched. -/
theorem foldl_step_lookup_ne (selfOrg agentId : String) :
    ∀ (todo : MStore) (st : MStore) (k : String), (∀ kv ∈ todo, kv.1 ≠ k) →
      (todo.foldl (deleteAgentDocStep selfOrg agentId) st).lookup k =
        st.lookup k := by
  intro todo
  induction todo with
  | nil => intro st k _; rfl
  | cons kv rest ih =>
    intro st k h
    rw [List.foldl_cons, ih _ _ (fun kv2 hm => h kv2 (List.mem_cons_of_mem _ hm))]
    unfold deleteAgentDocStep
    by_cases hg : listsAgent kv.2.meta agentId
    · rw [if_pos hg]
      exact updateDocumentMetaM_lookup_ne _ _ _ _ _
        (fun he => h kv (List.mem_cons_self ..) he.symm)
    · rw [if_neg hg]

theorem c5_list_agent :
    listDocumentsM c5BigStore (agentMetaFilter "A" "org1") 1 = [c5AgentDoc] := by
  unfold listDocumentsM c5BigStore
  rw [List.filter_cons, if_pos (show mMatches (agentMetaFilter "A" "org1")
    c5AgentDoc.2.meta = true from rfl)]
  rfl

theorem c5_st1_eq :
    c5BigStore.filter (fun kv => kv.1 ∉ (["agentdoc"] : List String)) =
      (List.range 1001).map c5AssocDoc := by
  unfold c5BigStore
  calc (c5AgentDoc :: (List.range 1001).map c5AssocDoc).filter
        (fun kv => kv.1 ∉ (["agentdoc"] : List String))
      = ((List.range 1001).map c5AssocDoc).filter
          (fun kv => kv.1 ∉ (["agentdoc"] : List String)) := by
        rw [List.filter_cons, if_neg (by decide)]
    _ = (List.range 1001).map c5AssocDoc := by
        apply List.filter_eq_self.mpr
        intro kv hkv
        obtain ⟨i, hi, rfl⟩ := List.mem_map.mp hkv
        simp [c5_id_ne_agentdoc i]

theorem c5_assoc_scan :
    listDocumentsM ((List.range 1001).map c5AssocDoc) (assocFilter "A" "org1") 1000 =
      (List.range 1000).map c5AssocDoc := by
  unfold listDocumentsM
  calc (((List.range 1001).map c5AssocDoc).filter
        (fun kv => mMatches (assocFilter "A" "org1") kv.2.meta)).take 1000
      = ((List.range 1001).map c5AssocDoc).take 1000 := by
        rw [List.filter_eq_self.mpr ?hall]
        case hall =>
          intro kv hkv
          obtain ⟨i, hi, rfl⟩ := List.mem_map.mp hkv
          rfl
    _ = ((List.range 1001).take 1000).map c5AssocDoc := (List.map_take ..).symm
    _ = (List.range 1000).map c5AssocDoc := by
        rw [List.take_range, show (1000 ⊓ 1001 : Nat) = 1000 from rfl]

theorem c5_run :
    deleteAgent c5BigStore "A" "org1" "alice" =
      (true, ((List.range 1000).map c5AssocDoc).foldl
        (deleteAgentDocStep "org1" "A") ((List.range 1001).map c5AssocDoc)) := by
  have hdel : deleteDocumentsM c5BigStore "org1" [c5AgentDoc.1] =
      (true, (List.range 1001).map c5AssocDoc) := by
    refine (deleteDocumentsM_single_run c5BigStore "org1" c5AgentDoc.1 c5AgentDoc.2
      rfl rfl).trans ?_
    show (true, c5BigStore.filter (fun kv => kv.1 ∉ (["agentdoc"] : List String))) = _
    rw [c5_st1_eq]
  refine (deleteAgent_run c5BigStore "A" "org1" "alice" c5AgentDoc []
    { agentId := "A", createdBy := "alice" } ((List.range 1001).map c5AssocDoc)
    c5_list_agent rfl rfl hdel).trans ?_
  rw [c5_assoc_scan]

theorem c5_last_id_fresh :
    ∀ kv ∈ (List.range 1000).map c5AssocDoc, kv.1 ≠ (c5AssocDoc 1000).1 := by
  intro kv hm heq
  obtain ⟨i, hi, rfl⟩ := List.mem_map.mp hm
  have hl := congrArg String.length heq
  rw [c5_assoc_id_length, c5_assoc_id_length] at hl
  rw [List.mem_range] at hi
  omega

theorem c5_lookup_last :
    List.lookup (c5AssocDoc 1000).1 ((List.range 1001).map c5AssocDoc) =
      some (c5AssocDoc 1000).2 := by
  have hsplit : (List.range 1001).map c5AssocDoc
      = (List.range 1000).map c5AssocDoc ++ [c5AssocDoc 1000] := by
    rw [show (1001 : Nat) = 1000 + 1 from rfl, List.range_succ, List.map_append]
    rfl
  calc List.lookup (c5AssocDoc 1000).1 ((List.range 1001).map c5AssocDoc)
      = List.lookup (c5AssocDoc 1000).1
          ((List.range 1000).map c5AssocDoc ++ [c5AssocDoc 1000]) := by rw [hsplit]
    _ = List.lookup (c5AssocDoc 1000).1 [c5AssocDoc 1000] :=
        lookup_append_right c5_last_id_fresh
    _ = some (c5AssocDoc 1000).2 := by rw [lookup_pair_cons, if_pos rfl]

/-- C5 counterexample: `delete_agent` caps the association scan at 1000
documents ("Set a reasonable limit", line 461).  In an organization with
1001 documents associated with agent `A`, `delete_agent` returns true but
the 1001st document still lists `A` in `associated_agents`, contradicting
"every document … no longer lists it". -/
theorem deleteAgent_limit_counterexample :
    (deleteAgent c5BigStore "A" "org1" "alice").1 = true
    ∧ c5BigStore.lookup (c5AssocDoc 1000).1 = some (c5AssocDoc 1000).2
    ∧ (deleteAgent c5BigStore "A" "org1" "alice").2.lookup (c5AssocDoc 1000).1
        = some (c5AssocDoc 1000).2
    ∧ listsAgent (c5AssocDoc 1000).2.meta "A" = true := by
  refine ⟨(congrArg Prod.fst c5_run).trans (pair_fst ..), ?_, ?_, rfl⟩
  · calc c5BigStore.lookup (c5AssocDoc 1000).1
        = List.lookup (c5AssocDoc 1000).1 ((List.range 1001).map c5AssocDoc) := by
          show List.lookup (c5AssocDoc 1000).1
            (c5AgentDoc :: (List.range 1001).map c5AssocDoc) = _
          rw [lookup_pair_cons, if_neg (show ¬ ((c5AssocDoc 1000).1 = c5AgentDoc.1)
            from fun he => c5_id_ne_agentdoc 1000 he)]
      _ = some (c5AssocDoc 1000).2 := c5_lookup_last
  · have hsnd : (deleteAgent c5BigStore "A" "org1" "alice").2
        = ((List.range 1000).map c5AssocDoc).foldl (deleteAgentDocStep "org1" "A")
            ((List.range 1001).map c5AssocDoc) :=
      (congrArg Prod.snd c5_run).trans (pair_snd ..)
    have hpres := foldl_step_lookup_ne "org1" "A" ((List.range 1000).map c5AssocDoc)
      ((List.range 1001).map c5AssocDoc) (c5AssocDoc 1000).1 c5_last_id_fresh
    exact (congrArg (List.lookup (c5AssocDoc 1000).1) hsnd).trans
      (hpres.trans c5_lookup_last)

/-! ### Lemmas towards the amended C5 claim -/

theorem lookup_isSome_iff_mem_keys {β : Type} {k : String} :
    ∀ {l : List (String × β)},
      (List.lookup k l).isSome = true ↔ k ∈ l.map Prod.fst := by
  intro l
  induction l with
  | nil => simp [List.lookup]
  | cons kv rest ih =>
    rw [lookup_pair_cons, List.map_cons]
    by_cases hk : k = kv.1
    · simp [hk]
    · rw [if_neg hk]
      simp only [List.mem_cons, ih]
      constructor
      · exact Or.inr
      · intro h
        rcases h with h | h
        · exact absurd h hk
        · exact h

theorem mem_eq_of_length_le_one {α : Type} {l : List α} (hlen : l.length ≤ 1)
    {a b : α} (ha : a ∈ l) (hb : b ∈ l) : a = b := by
  match l with
  | [] => simp at ha
  | [x] =>
    rw [List.mem_singleton.mp ha, List.mem_singleton.mp hb]
  | x :: y :: rest => simp at hlen

theorem mMatches_elim {flt : List (String × String)} {m : Meta}
    (h : mMatches flt m = true) {k v : String} (hkv : (k, v) ∈ flt) :
    (∃ s, m.lookup k = some (.str s) ∧ s = v)
    ∨ (∃ ss, m.lookup k = some (.list ss) ∧ v ∈ ss) := by
  unfold mMatches at h
  have hh := List.all_eq_true.mp h (k, v) hkv
  dsimp only at hh
  rcases hl : m.lookup k with _ | mv
  · rw [hl] at hh
    exact absurd hh (by simp)
  · match mv with
    | .str s =>
      rw [hl] at hh
      exact Or.inl ⟨s, rfl, by simpa using hh⟩
    | .list ss =>
      rw [hl] at hh
      exact Or.inr ⟨ss, rfl, by simpa using hh⟩
    | .int n =>
      rw [hl] at hh
      exact absurd hh (by simp)

theorem mMatches_congr {flt : List (String × String)} {m1 m2 : Meta}
    (h : ∀ kv ∈ flt, m1.lookup kv.1 = m2.lookup kv.1) :
    mMatches flt m1 = mMatches flt m2 := by
  unfold mMatches
  induction flt with
  | nil => rfl
  | cons kv rest ih =>
    rw [List.all_cons, List.all_cons,
      ih (fun kv2 hm => h kv2 (List.mem_cons_of_mem _ hm)),
      h kv (List.mem_cons_self ..)]

theorem mMatches_assocFilter_false_of_none {m : Meta} {agentId orgId : String}
    (h : m.lookup "associated_agents" = none) :
    mMatches (assocFilter agentId orgId) m = false := by
  unfold mMatches assocFilter
  rw [List.all_cons]
  dsimp only
  rw [h, Bool.false_and]

theorem mMatches_assocFilter_false_of_not_mem {m : Meta} {agentId orgId : String}
    (ss : List String) (h : m.lookup "associated_agents" = some (.list ss))
    (hnm : agentId ∉ ss) :
    mMatches (assocFilter agentId orgId) m = false := by
  unfold mMatches assocFilter
  rw [List.all_cons]
  dsimp only
  rw [h]
  dsimp only
  rw [decide_eq_false hnm, Bool.false_and]

theorem removeAgentAssociation_lookup_ne (m : Meta) (agentId : String) {k : String}
    (hk : k ≠ "associated_agents") :
    (removeAgentAssociation m agentId).lookup k = m.lookup k := by
  unfold removeAgentAssociation
  rcases hl : m.lookup "associated_agents" with _ | mv
  · rfl
  · match mv with
    | .str s => rfl
    | .int n => rfl
    | .list ss =>
      dsimp only
      by_cases he : ss.erase agentId = []
      · rw [if_pos he]
        exact lookup_filter_ne_key k "associated_agents" m hk
      · rw [if_neg he]
        exact lookup_pySet_ne m _ hk

theorem removeAgentAssociation_lookup_assoc (m : Meta) (agentId : String)
    (ss : List String) (hl : m.lookup "associated_agents" = some (.list ss))
    (hnd : ss.Nodup) :
    (removeAgentAssociation m agentId).lookup "associated_agents" = none
    ∨ ((removeAgentAssociation m agentId).lookup "associated_agents"
        = some (.list (ss.erase agentId)) ∧ agentId ∉ ss.erase agentId) := by
  unfold removeAgentAssociation
  rw [hl]
  dsimp only
  by_cases he : ss.erase agentId = []
  · rw [if_pos he]
    exact Or.inl (lookup_filter_self_none ..)
  · rw [if_neg he]
    exact Or.inr ⟨lookup_pySet_self .., hnd.not_mem_erase⟩

theorem deleteAgentDocStep_lookup_ne (selfOrg agentId : String) (st : MStore)
    (kv0 : String × MDoc) {k : String} (hne : kv0.1 ≠ k) :
    (deleteAgentDocStep selfOrg agentId st kv0).lookup k = st.lookup k := by
  unfold deleteAgentDocStep
  by_cases hg : listsAgent kv0.2.meta agentId
  · rw [if_pos hg]
    exact updateDocumentMetaM_lookup_ne _ _ _ _ _ (fun he => hne he.symm)
  · rw [if_neg hg]

theorem deleteAgentDocStep_map_fst (selfOrg agentId : String) (st : MStore)
    (kv0 : String × MDoc) :
    (deleteAgentDocStep selfOrg agentId st kv0).map Prod.fst = st.map Prod.fst := by
  unfold deleteAgentDocStep
  by_cases hg : listsAgent kv0.2.meta agentId
  · rw [if_pos hg]
    exact updateDocumentMetaM_map_fst ..
  · rw [if_neg hg]

theorem foldl_step_map_fst (selfOrg agentId : String) :
    ∀ (todo st : MStore),
      (todo.foldl (deleteAgentDocStep selfOrg agentId) st).map Prod.fst =
        st.map Prod.fst := by
  intro todo
  induction todo with
  | nil => intro st; rfl
  | cons kv rest ih =>
    intro st
    rw [List.foldl_cons, ih, deleteAgentDocStep_map_fst]

theorem deleteAgentDocStep_lookup_self (selfOrg agentId : String) (st : MStore)
    (kv0 : String × MDoc)
    (hsnap : st.lookup kv0.1 = some kv0.2)
    (horg : kv0.2.meta.lookup "organization_id" = some (.str selfOrg))
    (hwfa : ∀ v, kv0.2.meta.lookup "associated_agents" = some v →
      ∃ ss, v = .list ss ∧ ss.Nodup) :
    ∃ d2, (deleteAgentDocStep selfOrg agentId st kv0).lookup kv0.1 = some d2
      ∧ mMatches (assocFilter agentId selfOrg) d2.meta = false
      ∧ (∀ fk, fk ≠ "associated_agents" →
          d2.meta.lookup fk = kv0.2.meta.lookup fk) := by
  unfold deleteAgentDocStep
  by_cases hg : listsAgent kv0.2.meta agentId
  · rw [if_pos hg]
    unfold listsAgent at hg
    rcases hl : kv0.2.meta.lookup "associated_agents" with _ | mv
    · rw [hl] at hg
      exact absurd hg (by simp)
    · match mv with
      | .str s =>
        obtain ⟨ss, hss, _⟩ := hwfa _ hl
        exact absurd hss (by simp)
      | .int n =>
        obtain ⟨ss, hss, _⟩ := hwfa _ hl
        exact absurd hss (by simp)
      | .list ss =>
        rw [hl] at hg
        obtain ⟨ss0, hss0, hnd0⟩ := hwfa _ hl
        have hsseq : ss = ss0 := by injection hss0 with h2
        subst hsseq
        have hmd : (removeAgentAssociation kv0.2.meta agentId).any
            (fun kv => kv.1 = "organization_id") = true := by
          apply any_key_of_lookup (v := .str selfOrg)
          rw [removeAgentAssociation_lookup_ne _ _ (by decide)]
          exact horg
        rw [updateDocumentMetaM_run st selfOrg kv0.1 _ kv0.2 hsnap horg hmd]
        refine ⟨{ kv0.2 with meta := removeAgentAssociation kv0.2.meta agentId },
          ?_, ?_, ?_⟩
        · rw [pair_snd]
          exact lookup_mapUpdate_self _ hsnap
        · rcases removeAgentAssociation_lookup_assoc kv0.2.meta agentId ss hl hnd0
            with hnone | ⟨hsome, hnm⟩
          · exact mMatches_assocFilter_false_of_none hnone
          · exact mMatches_assocFilter_false_of_not_mem _ hsome hnm
        · intro fk hfk
          exact removeAgentAssociation_lookup_ne _ _ hfk
  · rw [if_neg hg]
    refine ⟨kv0.2, hsnap, ?_, fun fk _ => rfl⟩
    unfold listsAgent at hg
    rcases hl : kv0.2.meta.lookup "associated_agents" with _ | mv
    · exact mMatches_assocFilter_false_of_none hl
    · obtain ⟨ss, hss, _⟩ := hwfa _ hl
      subst hss
      rw [hl] at hg
      have hnm : agentId ∉ ss := by simpa using hg
      exact mMatches_assocFilter_false_of_not_mem _ hl hnm

theorem foldl_step_clean (selfOrg agentId : String) :
    ∀ (todo st : MStore),
      (∀ kv ∈ todo, st.lookup kv.1 = some kv.2) →
      (todo.map Prod.fst).Nodup →
      (∀ kv ∈ todo, kv.2.meta.lookup "organization_id" = some (.str selfOrg)) →
      (∀ kv ∈ todo, ∀ v, kv.2.meta.lookup "associated_agents" = some v →
        ∃ ss, v = .list ss ∧ ss.Nodup) →
      ∀ kv ∈ todo, ∃ d2,
        (todo.foldl (deleteAgentDocStep selfOrg agentId) st).lookup kv.1 = some d2
        ∧ mMatches (assocFilter agentId selfOrg) d2.meta = false
        ∧ (∀ fk, fk ≠ "associated_agents" →
            d2.meta.lookup fk = kv.2.meta.lookup fk) := by
  intro todo
  induction todo with
  | nil => intro st _ _ _ _ kv hm; simp at hm
  | cons kv0 rest ih =>
    intro st hsnap hnd horg hwfa kv hm
    rw [List.map_cons, List.nodup_cons] at hnd
    rw [List.foldl_cons]
    have hne0 : ∀ kv2 ∈ rest, kv0.1 ≠ kv2.1 := by
      intro kv2 hm2 he
      exact hnd.1 (he ▸ List.mem_map_of_mem Prod.fst hm2)
    rcases List.mem_cons.mp hm with hh | ht
    · subst hh
      obtain ⟨d2, hd2, hfalse, hpres⟩ := deleteAgentDocStep_lookup_self selfOrg agentId
        st kv (hsnap kv (List.mem_cons_self ..)) (horg kv (List.mem_cons_self ..))
        (hwfa kv (List.mem_cons_self ..))
      refine ⟨d2, ?_, hfalse, hpres⟩
      rw [foldl_step_lookup_ne selfOrg agentId rest _ kv.1
        (fun kv2 hm2 he => hne0 kv2 hm2 he.symm)]
      exact hd2
    · have hsnap2 : ∀ kv2 ∈ rest,
          (deleteAgentDocStep selfOrg agentId st kv0).lookup kv2.1 = some kv2.2 := by
        intro kv2 hm2
        rw [deleteAgentDocStep_lookup_ne selfOrg agentId st kv0 (hne0 kv2 hm2)]
        exact hsnap kv2 (List.mem_cons_of_mem _ hm2)
      exact ih _ hsnap2 hnd.2
        (fun kv2 hm2 => horg kv2 (List.mem_cons_of_mem _ hm2))
        (fun kv2 hm2 => hwfa kv2 (List.mem_cons_of_mem _ hm2)) kv ht

theorem deleteAgent_of_list_nil (store : MStore) (agentId organizationId userId : String)
    (hl : listDocumentsM store (agentMetaFilter agentId organizationId) 1 = []) :
    deleteAgent store agentId organizationId userId = (false, store) := by
  unfold deleteAgent
  rw [hl]

theorem deleteAgent_of_parse_none (store : MStore)
    (agentId organizationId userId : String) (agentDoc : String × MDoc) (rest : MStore)
    (hl : listDocumentsM store (agentMetaFilter agentId organizationId) 1
      = agentDoc :: rest)
    (hp : parseAgentText agentDoc.2.text = none) :
    deleteAgent store agentId organizationId userId = (false, store) := by
  unfold deleteAgent
  rw [hl]
  dsimp only
  rw [hp]

theorem deleteAgent_of_unauth (store : MStore)
    (agentId organizationId userId : String) (agentDoc : String × MDoc) (rest : MStore)
    (ar : AgentRec)
    (hl : listDocumentsM store (agentMetaFilter agentId organizationId) 1
      = agentDoc :: rest)
    (hp : parseAgentText agentDoc.2.text = some ar)
    (ha : ar.createdBy ≠ userId) :
    deleteAgent store agentId organizationId userId = (false, store) := by
  unfold deleteAgent
  rw [hl]
  dsimp only
  rw [hp]
  dsimp only
  rw [if_pos ha]

/-- C5 (amended): assume a well-formed store — unique document ids, string
`organization_id` values, duplicate-free list `associated_agents` values, at
most one metadata document for the agent — and **at most 1000 documents
associated with the agent** (the scan cap the code sets).  Then after a
successful `delete_agent`: no stored document matches the agent-metadata
identity (the metadata document is gone); no document of the organization
still lists the agent in `associated_agents`; no document other than the
agent metadata document was deleted; and `get_agent` returns absent. -/
theorem deleteAgent_cleanup
    (store : MStore) (agentId organizationId userId : String)
    (hkeys : (store.map Prod.fst).Nodup)
    (hwfOrg : ∀ kv ∈ store, ∀ v, kv.2.meta.lookup "organization_id" = some v →
      ∃ s, v = MVal.str s)
    (hwfAssoc : ∀ kv ∈ store, ∀ v, kv.2.meta.lookup "associated_agents" = some v →
      ∃ ss, v = MVal.list ss ∧ ss.Nodup)
    (huniq : (store.filter (fun kv =>
      mMatches (agentMetaFilter agentId organizationId) kv.2.meta)).length ≤ 1)
    (hbound : (store.filter (fun kv =>
      mMatches (assocFilter agentId organizationId) kv.2.meta)).length ≤ 1000)
    (hsucc : (deleteAgent store agentId organizationId userId).1 = true) :
    (∀ k d, (deleteAgent store agentId organizationId userId).2.lookup k = some d →
      mMatches (agentMetaFilter agentId organizationId) d.meta = false)
    ∧ (∀ k d, (deleteAgent store agentId organizationId userId).2.lookup k = some d →
      mMatches (assocFilter agentId organizationId) d.meta = false)
    ∧ (∀ k d, store.lookup k = some d →
      mMatches (agentMetaFilter agentId organizationId) d.meta = false →
      (((deleteAgent store agentId organizationId userId).2).lookup k).isSome = true)
    ∧ getAgentM (deleteAgent store agentId organizationId userId).2 agentId
        organizationId = .ok none := by
  rcases hl : listDocumentsM store (agentMetaFilter agentId organizationId) 1
    with _ | ⟨agentDoc, rest⟩
  · rw [deleteAgent_of_list_nil store _ _ _ hl] at hsucc
    exact absurd hsucc (by simp)
  rcases hp : parseAgentText agentDoc.2.text with _ | ar
  · rw [deleteAgent_of_parse_none store _ _ _ _ _ hl hp] at hsucc
    exact absurd hsucc (by simp)
  by_cases hauth : ar.createdBy = userId
  case neg =>
    rw [deleteAgent_of_unauth store _ _ _ _ _ _ hl hp hauth] at hsucc
    exact absurd hsucc (by simp)
  -- the located agent metadata document
  have hadocFilter : agentDoc ∈ store.filter (fun kv =>
      mMatches (agentMetaFilter agentId organizationId) kv.2.meta) := by
    have hmem : agentDoc ∈ listDocumentsM store
        (agentMetaFilter agentId organizationId) 1 := by
      rw [hl]; exact List.mem_cons_self ..
    exact List.mem_of_mem_take hmem
  have hadocMem : agentDoc ∈ store := List.mem_of_mem_filter hadocFilter
  have hadocMatch : mMatches (agentMetaFilter agentId organizationId)
      agentDoc.2.meta = true := (List.mem_filter.mp hadocFilter).2
  have hadocOrg : agentDoc.2.meta.lookup "organization_id"
      = some (.str organizationId) := by
    rcases mMatches_elim hadocMatch (show ("organization_id", organizationId)
        ∈ agentMetaFilter agentId organizationId from by
          unfold agentMetaFilter
          exact List.mem_cons_of_mem _ (List.mem_cons_self ..))
      with ⟨s, hs, hse⟩ | ⟨ss, hs, _⟩
    · rw [hs, hse]
    · obtain ⟨s2, habs⟩ := hwfOrg agentDoc hadocMem _ hs
      exact absurd habs (by simp)
  have hadocLookup : store.lookup agentDoc.1 = some agentDoc.2 :=
    lookup_of_mem_nodup hkeys hadocMem
  -- the successful run
  have hdel := deleteDocumentsM_single_run store organizationId agentDoc.1 agentDoc.2
    hadocLookup hadocOrg
  have hrun := deleteAgent_run store agentId organizationId userId agentDoc rest ar
    (store.filter (fun kv => kv.1 ∉ ([agentDoc.1] : List String))) hl hp hauth hdel
  have hconv : store.filter (fun kv => kv.1 ∉ ([agentDoc.1] : List String))
      = store.filter (fun kv => kv.1 ≠ agentDoc.1) := by
    apply List.filter_congr
    intro kv _
    by_cases h : kv.1 = agentDoc.1 <;> simp [h]
  rw [hconv] at hrun
  -- the intermediate store and the scanned documents
  have hst1keys : ((store.filter (fun kv => kv.1 ≠ agentDoc.1)).map Prod.fst).Nodup :=
    List.Nodup.sublist (List.Sublist.map _ (List.filter_sublist _)) hkeys
  have hst1mem : ∀ kv ∈ store.filter (fun kv => kv.1 ≠ agentDoc.1), kv ∈ store :=
    fun kv h => List.mem_of_mem_filter h
  have hboundq : ((store.filter (fun kv => kv.1 ≠ agentDoc.1)).filter (fun kv =>
      mMatches (assocFilter agentId organizationId) kv.2.meta)).length ≤ 1000 :=
    le_trans (List.Sublist.length_le
      (List.Sublist.filter _ (List.filter_sublist _))) hbound
  have htodo : listDocumentsM (store.filter (fun kv => kv.1 ≠ agentDoc.1))
      (assocFilter agentId organizationId) 1000
      = (store.filter (fun kv => kv.1 ≠ agentDoc.1)).filter (fun kv =>
          mMatches (assocFilter agentId organizationId) kv.2.meta) :=
    List.take_of_length_le hboundq
  rw [htodo] at hrun
  have hsnd : (deleteAgent store agentId organizationId userId).2
      = ((store.filter (fun kv => kv.1 ≠ agentDoc.1)).filter (fun kv =>
          mMatches (assocFilter agentId organizationId) kv.2.meta)).foldl
        (deleteAgentDocStep organizationId agentId)
        (store.filter (fun kv => kv.1 ≠ agentDoc.1)) :=
    (congrArg Prod.snd hrun).trans (pair_snd ..)
  have htodoMem : ∀ kv ∈ (store.filter (fun kv => kv.1 ≠ agentDoc.1)).filter (fun kv =>
      mMatches (assocFilter agentId organizationId) kv.2.meta),
      kv ∈ store.filter (fun kv => kv.1 ≠ agentDoc.1)
      ∧ mMatches (assocFilter agentId organizationId) kv.2.meta = true :=
    fun kv h => ⟨List.mem_of_mem_filter h, (List.mem_filter.mp h).2⟩
  have hsnapT : ∀ kv ∈ (store.filter (fun kv => kv.1 ≠ agentDoc.1)).filter (fun kv =>
      mMatches (assocFilter agentId organizationId) kv.2.meta),
      (store.filter (fun kv => kv.1 ≠ agentDoc.1)).lookup kv.1 = some kv.2 :=
    fun kv h => lookup_of_mem_nodup hst1keys ((htodoMem kv h).1)
  have hndT : (((store.filter (fun kv => kv.1 ≠ agentDoc.1)).filter (fun kv =>
      mMatches (assocFilter agentId organizationId) kv.2.meta)).map Prod.fst).Nodup :=
    List.Nodup.sublist (List.Sublist.map _ (List.filter_sublist _)) hst1keys
  have horgT : ∀ kv ∈ (store.filter (fun kv => kv.1 ≠ agentDoc.1)).filter (fun kv =>
      mMatches (assocFilter agentId organizationId) kv.2.meta),
      kv.2.meta.lookup "organization_id" = some (.str organizationId) := by
    intro kv h
    rcases mMatches_elim (htodoMem kv h).2 (show ("organization_id", organizationId)
        ∈ assocFilter agentId organizationId from by
          unfold assocFilter
          exact List.mem_cons_of_mem _ (List.mem_cons_self ..))
      with ⟨s, hs, hse⟩ | ⟨ss, hs, _⟩
    · rw [hs, hse]
    · obtain ⟨s2, habs⟩ := hwfOrg kv (hst1mem _ (htodoMem kv h).1) _ hs
      exact absurd habs (by simp)
  have hwfaT : ∀ kv ∈ (store.filter (fun kv => kv.1 ≠ agentDoc.1)).filter (fun kv =>
      mMatches (assocFilter agentId organizationId) kv.2.meta),
      ∀ v, kv.2.meta.lookup "associated_agents" = some v →
        ∃ ss, v = MVal.list ss ∧ ss.Nodup :=
    fun kv h v hv => hwfAssoc kv (hst1mem _ (htodoMem kv h).1) v hv
  have hcleanT := foldl_step_clean organizationId agentId
    ((store.filter (fun kv => kv.1 ≠ agentDoc.1)).filter (fun kv =>
      mMatches (assocFilter agentId organizationId) kv.2.meta))
    (store.filter (fun kv => kv.1 ≠ agentDoc.1)) hsnapT hndT horgT hwfaT
  have hst1NoAgent : ∀ k d,
      (store.filter (fun kv => kv.1 ≠ agentDoc.1)).lookup k = some d →
      mMatches (agentMetaFilter agentId organizationId) d.meta = false := by
    intro k d hlk
    by_cases hq : mMatches (agentMetaFilter agentId organizationId) d.meta = true
    · exfalso
      have hmem1 : (k, d) ∈ store.filter (fun kv => kv.1 ≠ agentDoc.1) :=
        mem_of_lookup_eq_some hlk
      have hkne : k ≠ agentDoc.1 := by
        have := (List.mem_filter.mp hmem1).2
        simpa using this
      have heq := mem_eq_of_length_le_one huniq
        (List.mem_filter.mpr ⟨hst1mem _ hmem1, hq⟩) hadocFilter
      exact hkne (congrArg Prod.fst heq)
    · exact Bool.eq_false_iff.mpr hq
  have hG1 : ∀ k d,
      (((store.filter (fun kv => kv.1 ≠ agentDoc.1)).filter (fun kv =>
          mMatches (assocFilter agentId organizationId) kv.2.meta)).foldl
        (deleteAgentDocStep organizationId agentId)
        (store.filter (fun kv => kv.1 ≠ agentDoc.1))).lookup k = some d →
      mMatches (agentMetaFilter agentId organizationId) d.meta = false := by
    intro k d hlk
    by_cases hk : ∀ kv ∈ (store.filter (fun kv => kv.1 ≠ agentDoc.1)).filter (fun kv =>
        mMatches (assocFilter agentId organizationId) kv.2.meta), kv.1 ≠ k
    · rw [foldl_step_lookup_ne organizationId agentId _ _ k hk] at hlk
      exact hst1NoAgent k d hlk
    · push_neg at hk
      obtain ⟨kv, hkv, hke⟩ := hk
      obtain ⟨d2, hd2, _, hpres⟩ := hcleanT kv hkv
      rw [hke, hlk] at hd2
      injection hd2 with hd2e
      rw [hd2e]
      have hcongr : mMatches (agentMetaFilter agentId organizationId) d2.meta
          = mMatches (agentMetaFilter agentId organizationId) kv.2.meta := by
        apply mMatches_congr
        intro kv2 hm2
        apply hpres
        unfold agentMetaFilter at hm2
        rcases List.mem_cons.mp hm2 with h2 | h2
        · rw [h2]
          exact (show ("agent_id" : String) ≠ "associated_agents" from by decide)
        rcases List.mem_cons.mp h2 with h3 | h3
        · rw [h3]
          exact (show ("organization_id" : String) ≠ "associated_agents" from by decide)
        rw [List.mem_singleton.mp h3]
        exact (show ("document_type" : String) ≠ "associated_agents" from by decide)
      rw [hcongr]
      exact hst1NoAgent kv.1 kv.2 (hsnapT kv hkv)
  have hG2 : ∀ k d,
      (((store.filter (fun kv => kv.1 ≠ agentDoc.1)).filter (fun kv =>
          mMatches (assocFilter agentId organizationId) kv.2.meta)).foldl
        (deleteAgentDocStep organizationId agentId)
        (store.filter (fun kv => kv.1 ≠ agentDoc.1))).lookup k = some d →
      mMatches (assocFilter agentId organizationId) d.meta = false := by
    intro k d hlk
    by_cases hk : ∀ kv ∈ (store.filter (fun kv => kv.1 ≠ agentDoc.1)).filter (fun kv =>
        mMatches (assocFilter agentId organizationId) kv.2.meta), kv.1 ≠ k
    · rw [foldl_step_lookup_ne organizationId agentId _ _ k hk] at hlk
      by_cases hq : mMatches (assocFilter agentId organizationId) d.meta = true
      · exfalso
        exact hk _ (List.mem_filter.mpr ⟨mem_of_lookup_eq_some hlk, hq⟩) rfl
      · exact Bool.eq_false_iff.mpr hq
    · push_neg at hk
      obtain ⟨kv, hkv, hke⟩ := hk
      obtain ⟨d2, hd2, hfalse, _⟩ := hcleanT kv hkv
      rw [hke, hlk] at hd2
      injection hd2 with hd2e
      rw [hd2e]
      exact hfalse
  refine ⟨?_, ?_, ?_, ?_⟩
  · intro k d h
    rw [hsnd] at h
    exact hG1 k d h
  · intro k d h
    rw [hsnd] at h
    exact hG2 k d h
  · intro k d hlk hnm
    have hkne : k ≠ agentDoc.1 := by
      intro he
      rw [he, hadocLookup] at hlk
      injection hlk with hde
      rw [← hde, hadocMatch] at hnm
      exact Bool.noConfusion hnm
    have h1 : (store.filter (fun kv => kv.1 ≠ agentDoc.1)).lookup k = some d := by
      rw [lookup_filter_ne_key k agentDoc.1 store hkne]
      exact hlk
    have h2 : k ∈ (store.filter (fun kv => kv.1 ≠ agentDoc.1)).map Prod.fst :=
      lookup_isSome_iff_mem_keys.mp (by rw [h1]; rfl)
    rw [hsnd]
    apply lookup_isSome_iff_mem_keys.mpr
    rw [foldl_step_map_fst]
    exact h2
  · rw [hsnd]
    have hFkeys : ((((store.filter (fun kv => kv.1 ≠ agentDoc.1)).filter (fun kv =>
        mMatches (assocFilter agentId organizationId) kv.2.meta)).foldl
        (deleteAgentDocStep organizationId agentId)
        (store.filter (fun kv => kv.1 ≠ agentDoc.1))).map Prod.fst).Nodup := by
      rw [foldl_step_map_fst]
      exact hst1keys
    have hnil : (((store.filter (fun kv => kv.1 ≠ agentDoc.1)).filter (fun kv =>
        mMatches (assocFilter agentId organizationId) kv.2.meta)).foldl
        (deleteAgentDocStep organizationId agentId)
        (store.filter (fun kv => kv.1 ≠ agentDoc.1))).filter (fun kv =>
          mMatches (agentMetaFilter agentId organizationId) kv.2.meta) = [] := by
      apply List.filter_eq_nil_iff.mpr
      intro kv hm hq
      have hlk := lookup_of_mem_nodup hFkeys hm
      rw [hG1 kv.1 kv.2 hlk] at hq
      exact Bool.noConfusion hq
    unfold getAgentM listDocumentsM
    rw [hnil]
    rfl

/-- A small well-formed store: the agent metadata document, one associated
knowledge document and one unrelated document. -/
def c5SmallStore : MStore :=
  [("agentdoc", { text := .agentJson { agentId := "A", createdBy := "alice" },
                  meta := [("agent_id", .str "A"), ("organization_id", .str "org1"),
                           ("user_id", .str "alice"),
                           ("document_type", .str "agent_metadata")] }),
   ("k1", { text := .plain "doc1",
            meta := [("organization_id", .str "org1"), ("user_id", .str "alice"),
                     ("associated_agents", .list ["A"])] }),
   ("k2", { text := .plain "doc2",
            meta := [("organization_id", .str "org1"), ("user_id", .str "bob")] })]

theorem c5Small_wfOrg : ∀ kv ∈ c5SmallStore, ∀ v,
    kv.2.meta.lookup "organization_id" = some v → ∃ s, v = MVal.str s := by
  intro kv hkv v hv
  rcases List.mem_cons.mp hkv with h | hkv2
  · subst h
    have hv2 : some (MVal.str "org1") = some v := hv
    exact ⟨"org1", (Option.some.inj hv2).symm⟩
  rcases List.mem_cons.mp hkv2 with h | hkv3
  · subst h
    have hv2 : some (MVal.str "org1") = some v := hv
    exact ⟨"org1", (Option.some.inj hv2).symm⟩
  rw [List.mem_singleton] at hkv3
  subst hkv3
  have hv2 : some (MVal.str "org1") = some v := hv
  exact ⟨"org1", (Option.some.inj hv2).symm⟩

theorem c5Small_wfAssoc : ∀ kv ∈ c5SmallStore, ∀ v,
    kv.2.meta.lookup "associated_agents" = some v →
    ∃ ss, v = MVal.list ss ∧ ss.Nodup := by
  intro kv hkv v hv
  rcases List.mem_cons.mp hkv with h | hkv2
  · subst h
    have hv2 : (none : Option MVal) = some v := hv
    exact absurd hv2 (by simp)
  rcases List.mem_cons.mp hkv2 with h | hkv3
  · subst h
    have hv2 : some (MVal.list ["A"]) = some v := hv
    exact ⟨["A"], (Option.some.inj hv2).symm, by decide⟩
  rw [List.mem_singleton] at hkv3
  subst hkv3
  have hv2 : (none : Option MVal) = some v := hv
  exact absurd hv2 (by simp)

/-- C5 witness: on the small store, `delete_agent` succeeds and the cleanup
theorem's hypotheses hold concretely, so afterwards no document matches the
agent identity or still lists it, the knowledge documents survive, and
`get_agent` reports absent. -/
theorem deleteAgent_cleanup_witness :
    ((c5SmallStore.map Prod.fst).Nodup
      ∧ (c5SmallStore.filter (fun kv =>
          mMatches (agentMetaFilter "A" "org1") kv.2.meta)).length ≤ 1
      ∧ (c5SmallStore.filter (fun kv =>
          mMatches (assocFilter "A" "org1") kv.2.meta)).length ≤ 1000
      ∧ (deleteAgent c5SmallStore "A" "org1" "alice").1 = true)
    ∧ ((∀ k d, (deleteAgent c5SmallStore "A" "org1" "alice").2.lookup k = some d →
          mMatches (agentMetaFilter "A" "org1") d.meta = false)
      ∧ (∀ k d, (deleteAgent c5SmallStore "A" "org1" "alice").2.lookup k = some d →
          mMatches (assocFilter "A" "org1") d.meta = false)
      ∧ (∀ k d, c5SmallStore.lookup k = some d →
          mMatches (agentMetaFilter "A" "org1") d.meta = false →
          (((deleteAgent c5SmallStore "A" "org1" "alice").2).lookup k).isSome = true)
      ∧ getAgentM (deleteAgent c5SmallStore "A" "org1" "alice").2 "A" "org1"
          = .ok none) :=
  ⟨⟨by decide, by decide, by decide, by decide⟩,
   deleteAgent_cleanup c5SmallStore "A" "org1" "alice" (by decide)
     c5Small_wfOrg c5Small_wfAssoc (by decide) (by decide) (by decide)⟩

end HelloPulse
